import Mathlib

/-
Verification of the graph state engine of `react-d3-graph`
(source: `src/lib/components/graph/graph.builder.js`, which bundles the
Graph/builder module, the Graph/helper module and the generic `utils` module).

The development shallowly embeds the JavaScript source in Lean:
pure functions become Lean functions, JS numbers are modelled as rationals
(the code under verification performs only exact arithmetic on them),
JS objects become either structured records (graph entities) or `JVal`
association lists (generic utility layer), and code that can throw returns
`Except`.
-/

namespace RD3G

/-- JS runtime values as consumed by the utility layer (`isDeepEqual`, `merge`,
`pick`, `antiPick`, `isEmptyObject`). Numbers are modelled as rationals (the
utility layer performs no arithmetic on them at all, only `===` comparisons),
arrays keep their element list, and plain objects keep their field list in
insertion order. Object references are not modelled: the strict equality
`===` (`jsEq` below) is `false` on every object/array pair, which matches every
call site in this module - they only ever compare freshly constructed objects,
never aliases. -/
inductive JVal where
  | undef
  | null
  | bool (b : Bool)
  | num (q : ℚ)
  | str (s : String)
  | obj (fields : List (String × JVal))
  | arr (elems : List JVal)

instance : Inhabited JVal := ⟨JVal.undef⟩

/-- JS strict equality `===` on the modelled values: value equality on
primitives (`undefined`, `null`, booleans, numbers, strings), `false` on any
pair involving an object or an array (reference equality of two distinct
freshly-built objects). -/
def jsEq : JVal → JVal → Bool
  | .undef, .undef => true
  | .null, .null => true
  | .bool a, .bool b => a == b
  | .num a, .num b => decide (a = b)
  | .str a, .str b => a == b
  | _, _ => false

/-- JS truthiness of a value (`!!o`). -/
def JVal.truthy : JVal → Bool
  | .undef => false
  | .null => false
  | .bool b => b
  | .num q => decide (q ≠ 0)
  | .str s => decide (s ≠ "")
  | .obj _ => true
  | .arr _ => true

/-- The JS test `typeof o === "object"` (true for plain objects, arrays and
`null`). -/
def JVal.isObjType : JVal → Bool
  | .obj _ => true
  | .arr _ => true
  | .null => true
  | _ => false

/-- Lookup in an association list by string key (first match), mirroring JS
property access on a plain object. -/
def alGet {α : Type} (m : List (String × α)) (k : String) : Option α :=
  (m.find? (fun p => p.1 == k)).map Prod.snd

/-- The numeric value of a decimal digit character. -/
def digitVal (c : Char) : Option Nat :=
  if c.isDigit then some (c.toNat - 48) else none

/-- Accumulating decimal parser over a character list (structural, so that
concrete property keys evaluate definitionally). -/
def parseDec : List Char → Nat → Option Nat
  | [], acc => some acc
  | c :: cs, acc =>
    match digitVal c with
    | some d => parseDec cs (10 * acc + d)
    | none => none

/-- Parse a non-empty all-digit string as a natural number. -/
def strIndex? (s : String) : Option Nat :=
  match s.toList with
  | [] => none
  | c :: cs => parseDec (c :: cs) 0

/-- Whether a string is the canonical decimal spelling of an index below
`len`: exactly the own index properties of a JS array or string (the
round-trip through `toString` rejects non-canonical spellings such as
`"01"`). -/
def isCanonicalIndex (len : Nat) (k : String) : Bool :=
  match strIndex? k with
  | some i => decide (i < len) && toString i == k
  | none => false

/-- `Object.keys o`: field names of a plain object, canonical index strings of
an array or a string, `[]` for anything else (primitives have no own
enumerable keys). -/
def JVal.keys : JVal → List String
  | .obj fs => fs.map Prod.fst
  | .arr xs => (List.range xs.length).map fun i => toString i
  | .str s => (List.range s.length).map fun i => toString i
  | _ => []

/-- `o.hasOwnProperty k`. Arrays and strings own exactly their canonical
index properties plus a non-enumerable `length` property. -/
def JVal.hasOwn : JVal → String → Bool
  | .obj fs, k => fs.any (fun p => p.1 == k)
  | .arr xs, k => k == "length" || isCanonicalIndex xs.length k
  | .str s, k => k == "length" || isCanonicalIndex s.length k
  | _, _ => false

/-- JS property read `o[k]` (yields `undefined` for a missing property).
Array and string reads parse the key as a canonical decimal index. -/
def JVal.get : JVal → String → JVal
  | .obj fs, k => (alGet fs k).getD .undef
  | .arr xs, k =>
    if k = "length" then .num xs.length
    else if isCanonicalIndex xs.length k then
      (match strIndex? k with
       | some i => xs.getD i .undef
       | none => .undef)
    else .undef
  | .str s, k =>
    if k = "length" then .num s.length
    else if isCanonicalIndex s.length k then
      (match strIndex? k with
       | some i => .str (String.singleton (s.toList.getD i 'z'))
       | none => .undef)
    else .undef
  | _, _ => (.undef)

/-- Source `isEmptyObject`: `!!o && typeof o === "object" &&
!Object.keys(o).length`. -/
def isEmptyObject (o : JVal) : Bool :=
  o.truthy && o.isObjType && o.keys.isEmpty

/-- Whether a value qualifies as a nested object for the recursive descent of
`isDeepEqual` and `deepClone`: an object-typed, non-`null`, non-empty value. -/
def nestedVal (v : JVal) : Bool :=
  v.isObjType && !(jsEq v .null) && !(isEmptyObject v)

/-- Source `_isPropertyNestedObject`: `!!o && o.hasOwnProperty(k) &&
typeof o[k] === "object" && o[k] !== null && !isEmptyObject(o[k])`. -/
def isPropertyNestedObject (o : JVal) (k : String) : Bool :=
  o.truthy && o.hasOwn k && nestedVal (o.get k)

/-- Recursion-depth cutoff shared by `isDeepEqual`, `merge` and `deepClone`
(source `MAX_DEPTH`). -/
def MAX_DEPTH : Nat := 20

/-- The per-key leaf comparison of `isDeepEqual`'s else-branch:
`(isEmptyObject(o1[k]) && isEmptyObject(o2[k])) ||
(o2.hasOwnProperty(k) && o2[k] === o1[k])`. -/
def deepEqLeaf (o2 : JVal) (k : String) (v1 v2 : JVal) : Bool :=
  (isEmptyObject v1 && isEmptyObject v2) || (o2.hasOwn k && jsEq v2 v1)

/-- The leaf comparison specialized to two array elements at the same index
`i < length`: there the `o2.hasOwnProperty(k)` conjunct is always true. -/
def deepEqLeafArr (v1 v2 : JVal) : Bool :=
  (isEmptyObject v1 && isEmptyObject v2) || jsEq v2 v1

/-- Body of the source `isDeepEqual` without the depth-0 reference shortcut:
mismatching emptiness is unequal, mismatching key counts are unequal, and
otherwise every key of `o1` is compared - recursively while both sides are
nested objects and the depth budget remains (`_depth < MAX_DEPTH`), by the
leaf comparison otherwise. The source pushes each per-key verdict into
`diffs` and returns `diffs.indexOf(false) === -1`, which is exactly the
conjunction over the keys modelled by `List.all`. For a pair of arrays the
generic loop over `Object.keys` (the canonical index strings `"0"`, `"1"`,
...) is embedded directly as the equivalent loop over element indices.
`fuel` is the remaining depth budget, i.e. `MAX_DEPTH - _depth`; the
exhausted-budget case is split out so the recursion is structural. -/
def isDeepEqualAux : Nat → JVal → JVal → Bool
  | 0, o1, o2 =>
    if (isEmptyObject o1 && !isEmptyObject o2) || (!isEmptyObject o1 && isEmptyObject o2) then
      false
    else
      match o1, o2 with
      | .arr xs, .arr ys =>
        if xs.length ≠ ys.length then false
        else
          (List.range xs.length).all fun i =>
            deepEqLeafArr (xs.getD i .undef) (ys.getD i .undef)
      | _, _ =>
        if o1.keys.length ≠ o2.keys.length then false
        else
          o1.keys.all fun k => deepEqLeaf o2 k (o1.get k) (o2.get k)
  | fuel + 1, o1, o2 =>
    if (isEmptyObject o1 && !isEmptyObject o2) || (!isEmptyObject o1 && isEmptyObject o2) then
      false
    else
      match o1, o2 with
      | .arr xs, .arr ys =>
        if xs.length ≠ ys.length then false
        else
          (List.range xs.length).all fun i =>
            let v1 := xs.getD i .undef
            let v2 := ys.getD i .undef
            if nestedVal v1 && nestedVal v2 then
              isDeepEqualAux fuel v1 v2
            else
              deepEqLeafArr v1 v2
      | _, _ =>
        if o1.keys.length ≠ o2.keys.length then false
        else
          o1.keys.all fun k =>
            if isPropertyNestedObject o1 k && isPropertyNestedObject o2 k then
              isDeepEqualAux fuel (o1.get k) (o2.get k)
            else
              deepEqLeaf o2 k (o1.get k) (o2.get k)

/-- Source `isDeepEqual`: reference/value shortcut at depth 0, then the
recursive key-by-key comparison with depth budget `MAX_DEPTH`. -/
def isDeepEqual (o1 o2 : JVal) : Bool :=
  if jsEq o1 o2 then true else isDeepEqualAux MAX_DEPTH o1 o2

/-- The non-nested per-key assignment of `merge`:
`o[k] = o2.hasOwnProperty(k) ? o2[k] : o1[k]`. -/
def mergeScalar (o1 o2 : JVal) (k : String) : String × JVal :=
  (k, if o2.hasOwn k then o2.get k else o1.get k)

/-- Source `merge` with remaining depth budget `fuel = MAX_DEPTH - _depth`.
When the base has no keys the override wins wholesale (or `{}` when the
override is falsy or an empty object); otherwise the result has exactly the
base's keys, each taken from the override when present, merged recursively
when both sides are object-typed, the override's value is truthy and the
depth budget remains (`_depth < MAX_DEPTH`), and re-materialized as an array
when both sides own a `length` property. The exhausted-budget case is split
out so the recursion is structural. -/
def mergeAux : Nat → JVal → JVal → JVal
  | 0, o1, o2 =>
    if (if o1.truthy then o1.keys else []).isEmpty then
      if o2.truthy && !isEmptyObject o2 then o2 else .obj []
    else
      .obj <| o1.keys.map fun k => mergeScalar o1 o2 k
  | fuel + 1, o1, o2 =>
    if (if o1.truthy then o1.keys else []).isEmpty then
      if o2.truthy && !isEmptyObject o2 then o2 else .obj []
    else
      .obj <| o1.keys.map fun k =>
        if (o2.get k).truthy && (o2.get k).isObjType && (o1.get k).isObjType then
          let r := mergeAux fuel (o1.get k) (o2.get k)
          if (o1.get k).hasOwn "length" && (o2.get k).hasOwn "length" then
            (k, .arr (r.keys.map fun rk => r.get rk))
          else
            (k, r)
        else
          mergeScalar o1 o2 k

/-- Source `merge` entry point (depth 0). -/
def merge (o1 o2 : JVal) : JVal :=
  mergeAux MAX_DEPTH o1 o2

/-- Source `pick`: reduce over the requested props, copying each own
property. -/
def pick (o : JVal) (props : List String) : JVal :=
  .obj <| props.foldl (fun acc k => if o.hasOwn k then acc ++ [(k, o.get k)] else acc) []

/-- Source `antiPick`: pick every key of `o` not listed in `props`. -/
def antiPick (o : JVal) (props : List String) : JVal :=
  pick o (o.keys.filter fun k => !props.contains k)

/-- A graph node record as it flows through the Graph/helper module. `id` is a
string (the source stringifies ids when keying the node map). The remaining
properties are optional, mirroring JS own-property presence: the simulation
fields `x`, `y`, `vx`, `vy`, `index`, the `highlighted` flag, the `_orphan`
tag (field `orphan` here), and a representative user-defined visual override
`color`. -/
structure GNode where
  id : String
  x : Option ℚ := none
  y : Option ℚ := none
  vx : Option ℚ := none
  vy : Option ℚ := none
  index : Option ℚ := none
  highlighted : Option Bool := none
  color : Option String := none
  orphan : Option Bool := none
deriving DecidableEq, Repr

/-- An input link as supplied by the consumer: `source`/`target` node ids, an
optional `value` (an arbitrary JS value until validated), and the optional
custom props the module reads (`isHidden` plus the
`LINK_CUSTOM_PROPS_WHITELIST` entries `color`, `opacity`, `strokeWidth`,
`label`). -/
structure InputLink where
  source : String
  target : String
  value : Option JVal := none
  isHidden : Option Bool := none
  color : Option String := none
  opacity : Option ℚ := none
  strokeWidth : Option ℚ := none
  label : Option String := none

/-- A link endpoint in resolved (d3) form: `{ id, highlighted }`. -/
structure Endpoint where
  id : String
  highlighted : Bool
deriving DecidableEq, Repr

/-- A d3 link as built by `_mapDataLinkToD3Link` when no link exists at the
given index: positional `index`, resolved endpoints, and the whitelisted
custom props. -/
structure D3LinkRec where
  index : Nat
  source : Endpoint
  target : Endpoint
  isHidden : Option Bool := none
  color : Option String := none
  opacity : Option ℚ := none
  strokeWidth : Option ℚ := none
  label : Option String := none
deriving DecidableEq, Repr

/-- The two coexisting link representations stored in `state.d3Links`: after a
fresh initialization they are plain copies of the input links (string
endpoints); `_mapDataLinkToD3Link` builds resolved-endpoint records for
indices beyond the previous list. Every consumer in the source dispatches on
`l.source.id !== undefined` exactly as the two constructors do. -/
inductive GLink where
  | raw (l : InputLink)
  | d3 (l : D3LinkRec)

/-- The input data object: `{ nodes, links }`. -/
structure GraphData where
  nodes : List GNode
  links : List InputLink

/-- The props handed to `initializeGraphState`: data, graph id, and the
consumer's (partial) configuration as a raw JS value. -/
structure GProps where
  data : GraphData
  id : String
  config : JVal

/-- The error taxonomy raised by `utils.throwErr` during validation
(`err.INSUFFICIENT_DATA`, `err.INVALID_LINKS` for a bad source or target id,
`err.INVALID_LINK_VALUE`); each carries the identifying data the source
interpolates into the message. -/
inductive GraphErr where
  | insufficientData
  | invalidSource (id : String)
  | invalidTarget (id : String)
  | invalidLinkValue (source target : String)
deriving DecidableEq, Repr

/-- Whether a link's `value` passes validation: the source throws when
`l.value !== undefined && typeof l.value !== "number"`. -/
def linkValueOK (l : InputLink) : Bool :=
  match l.value with
  | none => true
  | some .undef => true
  | some (.num _) => true
  | some _ => false

/-- The per-link body of `_validateGraphData`'s loop: the source id must name
an existing node, then the target id, then the declared `value` must be
numeric; the first failure throws. -/
def _validateLink (nodes : List GNode) (l : InputLink) : Except GraphErr Unit :=
  if (nodes.find? fun n => n.id == l.source).isNone then
    .error (.invalidSource l.source)
  else if (nodes.find? fun n => n.id == l.target).isNone then
    .error (.invalidTarget l.target)
  else if !linkValueOK l then
    .error (.invalidLinkValue l.source l.target)
  else
    .ok ()

/-- Source `_validateGraphData`: an empty (or absent) nodes collection throws
`INSUFFICIENT_DATA`; otherwise the links are checked in array order and the
first offending link throws. -/
def _validateGraphData (d : GraphData) : Except GraphErr Unit :=
  if d.nodes.isEmpty then .error .insufficientData
  else d.links.foldlM (fun _ l => _validateLink d.nodes l) ()

/-- Whether an association list owns a key (JS `!!m[k]` on a map whose values
are objects: a present empty row is still truthy). -/
def hasKey {α : Type} (m : List (String × α)) (k : String) : Bool :=
  m.any fun p => p.1 == k

/-- JS assignment `m[k] = v` on a plain object: an existing key keeps its
position, a new key is appended. -/
def alSet {α : Type} (m : List (String × α)) (k : String) (v : α) : List (String × α) :=
  if hasKey m k then m.map (fun p => if p.1 = k then (k, v) else p)
  else m ++ [(k, v)]

/-- The node map (`Object.<string, Object>` keyed by node id). -/
abbrev NodeMap := List (String × GNode)

/-- The adjacency matrix: node id to (neighbor id to connection weight). -/
abbrev Adj := List (String × List (String × ℚ))

/-- The endpoint id used by `_initializeLinks` and the diff code:
`l.source.id !== undefined && l.source.id !== null ? l.source.id : l.source`. -/
def GLink.srcId : GLink → String
  | .raw l => l.source
  | .d3 l => l.source.id

/-- Target analogue of `GLink.srcId`. -/
def GLink.tgtId : GLink → String
  | .raw l => l.target
  | .d3 l => l.target.id

/-- Truthiness of `l.isHidden` (absent property is falsy). -/
def GLink.isHiddenTruthy : GLink → Bool
  | .raw l => l.isHidden.getD false
  | .d3 l => l.isHidden.getD false

/-- The connection weight `l.value || 1`. A d3-shaped link carries no `value`
property (`value` is not in `LINK_CUSTOM_PROPS_WHITELIST`), so it always
yields the default 1. A raw link contributes its numeric value when truthy
(nonzero); non-numeric values are rejected by `_validateGraphData` before
`_initializeLinks` ever runs inside this module and are mapped to the default
weight here. -/
def GLink.weightValue : GLink → ℚ
  | .raw l =>
    match l.value with
    | some (.num q) => if q = 0 then 1 else q
    | _ => 1
  | .d3 _ => 1

/-- One step of the `reduce` in `_initializeLinks`: ensure both endpoint rows
exist, compute the weight (0 for a hidden link under `collapsible`), assign
the source-to-target entry, and mirror it when the graph is undirected. -/
def processOneLink (cfg : JVal) (links : Adj) (l : GLink) : Adj :=
  let source := l.srcId
  let target := l.tgtId
  let links := if hasKey links source then links else alSet links source []
  let links := if hasKey links target then links else alSet links target []
  let value : ℚ :=
    if (cfg.get "collapsible").truthy && l.isHiddenTruthy then 0 else l.weightValue
  let links := alSet links source (alSet ((alGet links source).getD []) target value)
  if !(cfg.get "directed").truthy then
    alSet links target (alSet ((alGet links target).getD []) source value)
  else links

/-- Source `_initializeLinks`: fold the links into the adjacency matrix,
starting from an empty object. -/
def _initializeLinks (graphLinks : List GLink) (cfg : JVal) : Adj :=
  graphLinks.foldl (processOneLink cfg) []

/-- The in-place update `_initializeNodes` performs on each node object:
`node.highlighted = false`, and `x`/`y` default to 0 when the property is
absent. -/
def initNode (n : GNode) : GNode :=
  { n with highlighted := some false, x := some (n.x.getD 0), y := some (n.y.getD 0) }

/-- Source `_initializeNodes`: mutate each node as in `initNode` and key the
resulting map by `node.id.toString()` (ids are already strings in this
model). -/
def _initializeNodes (graphNodes : List GNode) : NodeMap :=
  graphNodes.foldl (fun m n => alSet m n.id (initNode n)) []

/-- Modelled from the spec: `computeNodeDegree` lives in `collapse.helper`,
which is not under `src/`. Per spec section 4.4 it returns
`(inDegree, outDegree)` by counting, over the full adjacency matrix, the
incoming edges (any row containing `nodeId` with nonzero weight) and the
outgoing edges (nonzero entries in `nodeId`'s own row). -/
def computeNodeDegree (nodeId : String) (linksMatrix : Adj) : Nat × Nat :=
  let inDegree :=
    (linksMatrix.map fun row =>
      (row.2.filter fun e => e.1 == nodeId && decide (e.2 ≠ 0)).length).sum
  let outDegree :=
    (((alGet linksMatrix nodeId).getD []).filter fun e => decide (e.2 ≠ 0)).length
  (inDegree, outDegree)

/-- Source `_tagOrphanNodes`: rebuild the map in key order, extending a node
with `_orphan: true` exactly when both of its degrees are zero and keeping the
node record untouched otherwise. -/
def _tagOrphanNodes (nodes : NodeMap) (linksMatrix : Adj) : NodeMap :=
  nodes.map fun p =>
    let deg := computeNodeDegree p.1 linksMatrix
    if deg.1 = 0 ∧ deg.2 = 0 then (p.1, { p.2 with orphan := some true }) else p

/-- Source: `Object.assign({}, n, utils.pick(state.nodes[n.id],
NODE_PROPS_WHITELIST))` with `NODE_PROPS_WHITELIST = ["id", "highlighted",
"x", "y", "index", "vy", "vx"]`, modelled field-wise: each whitelisted
property of the previous node overrides the incoming node's when present
(`id` is always present on a node record). -/
def overlayPrevNode (n prev : GNode) : GNode :=
  { n with
    id := prev.id
    highlighted := prev.highlighted <|> n.highlighted
    x := prev.x <|> n.x
    y := prev.y <|> n.y
    index := prev.index <|> n.index
    vy := prev.vy <|> n.vy
    vx := prev.vx <|> n.vx }

/-- The spread `_extends({}, d3Link, customProps)` where `customProps =
utils.pick(link, LINK_CUSTOM_PROPS_WHITELIST)`: present whitelisted props of
the incoming link override the stored link's. -/
def overlayCustomProps (base : GLink) (link : InputLink) : GLink :=
  match base with
  | .raw l0 => .raw { l0 with
      color := link.color <|> l0.color
      opacity := link.opacity <|> l0.opacity
      strokeWidth := link.strokeWidth <|> l0.strokeWidth
      label := link.label <|> l0.label }
  | .d3 l0 => .d3 { l0 with
      color := link.color <|> l0.color
      opacity := link.opacity <|> l0.opacity
      strokeWidth := link.strokeWidth <|> l0.strokeWidth
      label := link.label <|> l0.label }

/-- The spread `_extends({}, l, { isHidden: false })`. -/
def GLink.withIsHiddenFalse : GLink → GLink
  | .raw l => .raw { l with isHidden := some false }
  | .d3 l => .d3 { l with isHidden := some false }

/-- Capture of the `_createForceSimulation` collaborator call: the d3-force
physics engine is an external collaborator (spec sections 2 and 5); the
handle records the arguments the source passes to it. -/
structure SimulationHandle where
  width : JVal
  height : JVal
  gravity : JVal

/-- Source `_createForceSimulation`, modelled as the capture of its
arguments (the returned d3 simulation object is out of scope). -/
def _createForceSimulation (width height gravity : JVal) : SimulationHandle :=
  { width := width, height := height, gravity := gravity }

/-- The graph component state as returned by `initializeGraphState`. -/
structure GState where
  id : String
  config : JVal
  links : Adj
  d3Links : List GLink
  nodes : NodeMap
  d3Nodes : List GNode
  highlightedNode : String
  simulation : SimulationHandle
  newGraphElements : Bool
  configUpdated : Bool
  transform : ℚ

/-- Source `_mapDataLinkToD3Link`: when a d3 link already exists at `index`,
overlay the new link's custom props onto it, and force `isHidden: false`
unless collapsing stays enabled and `directed` was not toggled; otherwise
build a fresh resolved-endpoint link. `config` is the raw incoming
configuration (the caller passes the unmerged `props.config`). -/
def _mapDataLinkToD3Link (link : InputLink) (index : Nat) (d3Links : List GLink)
    (config : JVal) (st : GState) : GLink :=
  match d3Links[index]? with
  | some d3Link =>
    let toggledDirected := (st.config.get "directed").truthy &&
      !(jsEq (config.get "directed") (st.config.get "directed"))
    let refined := overlayCustomProps d3Link link
    if toggledDirected then refined.withIsHiddenFalse
    else if (config.get "collapsible").truthy then refined
    else refined.withIsHiddenFalse
  | none =>
    .d3 { index := index
          source := { id := link.source, highlighted := false }
          target := { id := link.target, highlighted := false }
          isHidden := none, color := link.color, opacity := link.opacity
          strokeWidth := link.strokeWidth, label := link.label }

/-- Modelled from the spec: the default configuration object (module
`graph.config`, which is not under `src/`). Spec section 6 names the
recognized option groups; representative default values are supplied
(`directed` and `collapsible` default to false, `highlightDegree` to 1, per
the spec's examples). Only its key set and the scalars read by
`initializeGraphState` matter below. -/
def defaultConfigJ : JVal :=
  .obj [
    ("width", .num 800), ("height", .num 600),
    ("directed", .bool false), ("collapsible", .bool false),
    ("highlightDegree", .num 1), ("highlightOpacity", .num 1),
    ("minZoom", .num (1/10)), ("maxZoom", .num 8), ("focusZoom", .num 1),
    ("node", .obj [("color", .str "#d3d3d3"), ("size", .num 200),
      ("highlightColor", .str "SAME")]),
    ("link", .obj [("color", .str "#d3d3d3"), ("strokeWidth", .num (3/2)),
      ("highlightColor", .str "SAME"), ("semanticStrokeWidth", .bool false)]),
    ("d3", .obj [("gravity", .num (-100))])]

/-- JS property write `o[k] = v` on a plain object (identity on non-objects;
the merged configuration it is applied to is always a non-empty object). -/
def JVal.setProp : JVal → String → JVal → JVal
  | .obj fs, k, v => .obj (alSet fs k v)
  | o, _, _ => o

/-- The JS expression `a && b`. -/
def jsAnd (a b : JVal) : JVal :=
  if a.truthy then b else a

/-- JS `a > b` restricted to numbers; comparisons involving any non-number
are modelled as false (the merged config's zoom options are numbers). -/
def jsNumGt : JVal → JVal → Bool
  | .num a, .num b => decide (b < a)
  | _, _ => false

/-- JS `a < b` restricted to numbers, as in `jsNumGt`. -/
def jsNumLt : JVal → JVal → Bool
  | .num a, .num b => decide (a < b)
  | _, _ => false

/-- The `graph.nodes` collection of `initializeGraphState`: with a previous
state (`state && state.nodes` is truthy whenever a state exists, a node map
object being truthy even when empty), each incoming node is overlaid with the
whitelisted previous fields of the same-id previous node; otherwise fresh
copies (pure values here). -/
def graphNodesOf (props : GProps) (state : Option GState) : List GNode :=
  match state with
  | some st =>
    props.data.nodes.map fun n =>
      match alGet st.nodes n.id with
      | some prev => overlayPrevNode n prev
      | none => n
  | none => props.data.nodes

/-- The `graph.links` collection of `initializeGraphState`: with a previous
state each incoming link is matched positionally through
`_mapDataLinkToD3Link`; otherwise fresh copies of the raw input links. -/
def graphLinksOf (props : GProps) (state : Option GState) : List GLink :=
  match state with
  | some st =>
    props.data.links.enum.map fun p => _mapDataLinkToD3Link p.2 p.1 st.d3Links props.config st
  | none => props.data.links.map GLink.raw

/-- The merged configuration `merge(DEFAULT_CONFIG, config || {})`
(`Object.assign({}, ...)` is a shallow copy and the identity in this value
model). -/
def newConfigOf (props : GProps) : JVal :=
  merge defaultConfigJ (if props.config.truthy then props.config else .obj [])

/-- The state construction performed by `initializeGraphState` after
validation has passed. In the source, `_initializeNodes` mutates the very
node objects aliased by `d3Nodes`, so the embedding applies the same
`initNode` update to the returned `d3Nodes` list. -/
def buildGraphState (props : GProps) (state : Option GState) : GState :=
  let graphNodes := graphNodesOf props state
  let graphLinks := graphLinksOf props state
  let newConfig := newConfigOf props
  let links := _initializeLinks graphLinks newConfig
  let nodes := _tagOrphanNodes (_initializeNodes graphNodes) links
  let d3Nodes := graphNodes.map initNode
  let d3Links := graphLinks
  let formatedId := props.id.replace " " "_"
  let simulation := _createForceSimulation (newConfig.get "width") (newConfig.get "height")
    (jsAnd (newConfig.get "d3") ((newConfig.get "d3").get "gravity"))
  let newConfig :=
    if jsNumGt (newConfig.get "focusZoom") (newConfig.get "maxZoom") then
      newConfig.setProp "focusZoom" (newConfig.get "maxZoom")
    else if jsNumLt (newConfig.get "focusZoom") (newConfig.get "minZoom") then
      newConfig.setProp "focusZoom" (newConfig.get "minZoom")
    else newConfig
  { id := formatedId, config := newConfig, links := links, d3Links := d3Links
    nodes := nodes, d3Nodes := d3Nodes, highlightedNode := ""
    simulation := simulation, newGraphElements := false, configUpdated := false
    transform := 1 }

/-- Source `initializeGraphState`: validate first (a validation failure
aborts the whole call before any state is built), then construct the new
state. -/
def initializeGraphState (props : GProps) (state : Option GState) :
    Except GraphErr GState := do
  _validateGraphData props.data
  pure (buildGraphState props state)

/-- One node update of `updateNodeHighlightedValue` (value level; object
identity is studied separately by the heap model below): the updated node is
a copy of `m[k]` with `highlighted` set (an absent node spreads to a bare
record, modelled with an empty id), assigned back under `k`. The neighbor
loop's source closure reads `updatedNodes[linkId]`, which aliases the
accumulator that `Object.assign` mutates in place, so the lookup is in the
accumulator. -/
def setNodeHighlight (m : NodeMap) (k : String) (value : Bool) : NodeMap :=
  alSet m k
    (match alGet m k with
     | some n => { n with highlighted := some value }
     | none => { id := "", highlighted := some value })

/-- Source `updateNodeHighlightedValue`: update the named node, and - when
the id's adjacency row exists (a present empty row is truthy) and
`config.highlightDegree !== 0` - every key of that row likewise. Returns the
updated map and the active highlighted node id (empty when deactivating). -/
def updateNodeHighlightedValue (nodes : NodeMap) (links : Adj) (config : JVal)
    (id : String) (value : Bool) : NodeMap × String :=
  let highlightedNode := if value then id else ""
  let updatedNodes := setNodeHighlight nodes id value
  if (alGet links id).isSome && !(jsEq (config.get "highlightDegree") (.num 0)) then
    ((((alGet links id).getD []).map Prod.fst).foldl
      (fun acc linkId => setNodeHighlight acc linkId value) updatedNodes,
     highlightedNode)
  else (updatedNodes, highlightedNode)

/-- Encode an optional JS own property. -/
def optField {α : Type} (k : String) (f : α → JVal) : Option α → List (String × JVal)
  | none => []
  | some v => [(k, f v)]

/-- A node record viewed as the JS object it is (present properties only). -/
def GNode.toJ (n : GNode) : JVal :=
  .obj ([("id", .str n.id)]
    ++ optField "x" .num n.x ++ optField "y" .num n.y
    ++ optField "vx" .num n.vx ++ optField "vy" .num n.vy
    ++ optField "index" .num n.index
    ++ optField "highlighted" .bool n.highlighted
    ++ optField "color" .str n.color
    ++ optField "_orphan" .bool n.orphan)

/-- An input link viewed as the JS object it is. -/
def InputLink.toJ (l : InputLink) : JVal :=
  .obj ([("source", .str l.source), ("target", .str l.target)]
    ++ optField "value" (fun v => v) l.value
    ++ optField "isHidden" .bool l.isHidden
    ++ optField "color" .str l.color
    ++ optField "opacity" .num l.opacity
    ++ optField "strokeWidth" .num l.strokeWidth
    ++ optField "label" .str l.label)

/-- A resolved endpoint viewed as the JS object `{ id, highlighted }`. -/
def Endpoint.toJ (e : Endpoint) : JVal :=
  .obj [("id", .str e.id), ("highlighted", .bool e.highlighted)]

/-- A d3 link record viewed as the JS object it is. -/
def D3LinkRec.toJ (l : D3LinkRec) : JVal :=
  .obj ([("index", .num l.index), ("source", l.source.toJ), ("target", l.target.toJ)]
    ++ optField "color" .str l.color
    ++ optField "opacity" .num l.opacity
    ++ optField "strokeWidth" .num l.strokeWidth
    ++ optField "label" .str l.label
    ++ optField "isHidden" .bool l.isHidden)

/-- A stored link viewed as the JS object it is. -/
def GLink.toJ : GLink → JVal
  | .raw l => l.toJ
  | .d3 l => l.toJ

/-- Source `NODE_PROPERTIES_DISCARD_TO_COMPARE`. -/
def NODE_PROPERTIES_DISCARD_TO_COMPARE : List String := ["x", "y", "vx", "vy", "index"]

/-- The endpoint projection in `checkForGraphElementsChanges`:
`l.source.id !== undefined && l.source.id !== null ? l.source.id : l.source`
(and likewise for `target`). -/
def epProj (l : JVal) (k : String) : JVal :=
  let s := l.get k
  let sid := s.get "id"
  if !(jsEq sid .undef) && !(jsEq sid .null) then sid else s

/-- The `nextProps.data` slice read by `checkForGraphElementsChanges`. -/
structure ElementsInput where
  nodes : List JVal
  links : List JVal

/-- The `currentState` slice read by `checkForGraphElementsChanges`. -/
structure ElementsState where
  d3Nodes : List JVal
  d3Links : List JVal

/-- Source `checkForGraphElementsChanges`: `graphElementsUpdated` deep-compares
the ephemeral-stripped next nodes against the ephemeral-stripped state
`d3Nodes` and the raw next links against the state `d3Links` projected to
`{source, target}` id pairs; `newGraphElements` fires on differing counts, on
differing node id projections, or when the raw next links do not deep-equal
the projected state links. -/
def checkForGraphElementsChanges (next : ElementsInput) (cur : ElementsState) :
    Bool × Bool :=
  let nextNodes := next.nodes.map (antiPick · NODE_PROPERTIES_DISCARD_TO_COMPARE)
  let nextLinks := next.links
  let stateD3Nodes := cur.d3Nodes.map (antiPick · NODE_PROPERTIES_DISCARD_TO_COMPARE)
  let stateD3Links := cur.d3Links.map fun l =>
    JVal.obj [("source", epProj l "source"), ("target", epProj l "target")]
  let graphElementsUpdated :=
    !(isDeepEqual (.arr nextNodes) (.arr stateD3Nodes) &&
      isDeepEqual (.arr nextLinks) (.arr stateD3Links))
  let newGraphElements :=
    nextNodes.length != stateD3Nodes.length ||
    nextLinks.length != stateD3Links.length ||
    !(isDeepEqual (.arr (nextNodes.map fun n => JVal.obj [("id", n.get "id")]))
        (.arr (stateD3Nodes.map fun n => JVal.obj [("id", n.get "id")]))) ||
    !(isDeepEqual (.arr nextLinks)
        (.arr (stateD3Links.map fun l =>
          JVal.obj [("source", l.get "source"), ("target", l.get "target")])))
  (graphElementsUpdated, newGraphElements)

/-- `checkForGraphElementsChanges` applied to structured data: the incoming
props and the state's `d3Nodes`/`d3Links` encoded as the JS objects they
are. -/
def checkForGraphElementsChangesS (next : GraphData) (st : GState) : Bool × Bool :=
  checkForGraphElementsChanges
    { nodes := next.nodes.map GNode.toJ, links := next.links.map InputLink.toJ }
    { d3Nodes := st.d3Nodes.map GNode.toJ, d3Links := st.d3Links.map GLink.toJ }

/-- Heap addresses for the object-identity model. -/
abbrev Addr := Nat

/-- Heap objects for the object-identity model of
`updateNodeHighlightedValue`: node records, and node-map objects whose fields
reference node records by address. -/
inductive HObj where
  | nodeObj (n : GNode)
  | mapObj (fields : List (String × Addr))

/-- A heap: allocated addresses paired with their objects. -/
abbrev Heap := List (Addr × HObj)

/-- Dereference an address. -/
def Heap.val (h : Heap) (a : Addr) : Option HObj :=
  (h.find? fun p => p.1 == a).map Prod.snd

/-- The largest allocated address. -/
def maxAddr (h : Heap) : Addr :=
  (h.map Prod.fst).foldr max 0

/-- Allocate a fresh object (as JS object construction does). -/
def Heap.alloc (h : Heap) (o : HObj) : Heap × Addr :=
  let a := maxAddr h + 1
  ((a, o) :: h, a)

/-- In-place mutation of the object at an address (as `Object.assign` with a
non-fresh first argument does). -/
def Heap.setAt (h : Heap) (a : Addr) (o : HObj) : Heap :=
  h.map fun p => if p.1 == a then (a, o) else p

/-- The field table of the map object at an address. -/
def heapMapFields (h : Heap) (a : Addr) : List (String × Addr) :=
  match h.val a with
  | some (.mapObj fs) => fs
  | _ => []

/-- The node record spread from `fields[k]` (a missing binding spreads to a
bare record, modelled with an empty id). -/
def heapNodeAt (h : Heap) (fields : List (String × Addr)) (k : String) : GNode :=
  match alGet fields k with
  | some a =>
    match h.val a with
    | some (.nodeObj n) => n
    | _ => { id := "" }
  | none => { id := "" }

/-- Source `updateNodeHighlightedValue` at the object level, tracking
allocation and mutation: the updated node and the updated map are freshly
allocated (`Object.assign({}, ...)`); the neighbor loop's
`Object.assign(acc, ...)` mutates the freshly-built map object in place -
never one of the input objects. Returns the heap, the address of the new map,
and the highlighted node id. -/
def updateNodeHighlightedValueH (h : Heap) (nodesA : Addr) (links : Adj)
    (config : JVal) (id : String) (value : Bool) : Heap × Addr × String :=
  let highlightedNode := if value then id else ""
  let fields := heapMapFields h nodesA
  let node : GNode := { heapNodeAt h fields id with highlighted := some value }
  let p1 := h.alloc (.nodeObj node)
  let p2 := p1.1.alloc (.mapObj (alSet fields id p1.2))
  let aMap := p2.2
  if (alGet links id).isSome && !(jsEq (config.get "highlightDegree") (.num 0)) then
    let h3 := (((alGet links id).getD []).map Prod.fst).foldl
      (fun hAcc linkId =>
        let curFields := heapMapFields hAcc aMap
        let updatedNode : GNode :=
          { heapNodeAt hAcc curFields linkId with highlighted := some value }
        let pA := hAcc.alloc (.nodeObj updatedNode)
        pA.1.setAt aMap (.mapObj (alSet curFields linkId pA.2)))
      p2.1
    (h3, aMap, highlightedNode)
  else (p2.1, aMap, highlightedNode)

/-- The runtime error a JS property access on `undefined` raises
(`TypeError`). -/
inductive JsErr where
  | typeError
deriving DecidableEq, Repr

/-- The JS default `o || d` for an optional numeric property (`0` is falsy). -/
def jsOrQ (o : Option ℚ) (d : ℚ) : ℚ :=
  match o with
  | some v => if v = 0 then d else v
  | none => d

/-- The JS default `o || d` for an optional string property (`""` is falsy). -/
def jsOrStr (o : Option String) (d : String) : String :=
  match o with
  | some s => if s = "" then d else s
  | none => d

/-- Modelled from the spec: the sentinel keyword "same as normal" used by the
highlight-override configuration values (`CONST.KEYWORDS.SAME` from
`graph.const`, which is not under `src/`; spec sections 4.3 and 6). -/
def SAME_KEYWORD : String := "SAME"

/-- Modelled from the spec: the link CSS class constant
(`CONST.LINK_CLASS_NAME` from `graph.const`, not under `src/`). -/
def LINK_CLASS_NAME : String := "link"

/-- Modelled from the spec: the path collaborator (`link.helper`, not under
`src/`) deterministically produces a path description string from the two
endpoint coordinates and the configured link type (spec section 6). -/
def buildLinkPathDefinition (x1 y1 x2 y2 : ℚ) (lt : String) : String :=
  "M" ++ toString x1 ++ "," ++ toString y1 ++ " " ++ lt ++ " " ++
    toString x2 ++ "," ++ toString y2

/-- The link slice of the configuration read by `buildLinkProps`. -/
structure LinkCfg where
  linkType : String := "STRAIGHT"
  color : String := "#d3d3d3"
  highlightColor : String := "SAME"
  opacity : ℚ := 1
  strokeWidth : ℚ := 3/2
  semanticStrokeWidth : Bool := false
  mouseCursor : String := "pointer"
  renderLabel : Bool := false
  labelProperty : String := "label"
  fontSize : ℚ := 8
  fontColor : String := "black"
  fontWeight : String := "normal"
  highlightFontWeight : String := "bold"
deriving DecidableEq, Repr

/-- The configuration slice read by `buildLinkProps`. -/
structure BLConfig where
  highlightDegree : ℚ := 1
  highlightOpacity : ℚ := 1
  directed : Bool := false
  link : LinkCfg := {}
deriving DecidableEq, Repr

/-- Modelled from the spec: the marker collaborator (`marker.helper`, not
under `src/`) produces a marker identifier from the highlight state, the zoom
transform and the configuration (spec section 6). -/
def getMarkerId (highlight : Bool) (transform : ℚ) (cfg : BLConfig) : String :=
  "marker-" ++ (if highlight then "h-" else "") ++ toString transform ++ "-" ++
    cfg.link.linkType

/-- The link argument of `buildLinkProps` as rendered: string endpoints plus
the optional custom visual props the function reads. -/
structure RenderLink where
  source : String
  target : String
  color : Option String := none
  opacity : Option ℚ := none
  strokeWidth : Option ℚ := none
  fontSize : Option ℚ := none
  fontColor : Option String := none
  label : Option String := none
deriving DecidableEq, Repr

/-- The externally designated highlighted link `{ source, target }`. -/
structure HLink where
  source : String
  target : String
deriving DecidableEq, Repr

/-- `link[config.link.labelProperty]`: only the `label` custom property (the
default `labelProperty`) is modelled on link records; any other property name
reads as absent. -/
def linkLabelProp (link : RenderLink) (prop : String) : Option String :=
  if prop = "label" then link.label else none

/-- The prop record `buildLinkProps` returns (the four pass-through
interaction callbacks are omitted: the source copies them verbatim from
`linkCallbacks`). -/
structure LinkProps where
  markerId : Option String
  d : String
  source : String
  target : String
  strokeWidth : ℚ
  stroke : String
  label : Option String
  mouseCursor : String
  fontColor : Option String
  fontSize : ℚ
  fontWeight : Option String
  className : String
  opacity : ℚ
deriving DecidableEq, Repr

/-- The fallback `links[target][source] || 1` of the semantic stroke width
computation: reading `links[target]` throws when that row is absent. -/
def fallbackWeight (links : Adj) (target source : String) : Except JsErr ℚ := do
  let rowT ← match alGet links target with
    | some r => pure r
    | none => throw JsErr.typeError
  match alGet rowT source with
  | some q2 => pure (if q2 = 0 then 1 else q2)
  | none => pure 1

/-- The endpoint coordinate lookup `(nodes[k] && nodes[k].x) || 0`: a missing
node - or a missing/zero coordinate - degrades to 0. -/
def coordX (nodes : NodeMap) (k : String) : ℚ :=
  match alGet nodes k with
  | some n => n.x.getD 0
  | none => 0

/-- As `coordX`, for the `y` coordinate. -/
def coordY (nodes : NodeMap) (k : String) : ℚ :=
  match alGet nodes k with
  | some n => n.y.getD 0
  | none => 0

/-- The `switch (config.highlightDegree)` of `buildLinkProps`: case 0 - no
participation; case 2 - always; default (1st degree) - the link touches the
highlighted node. -/
def mainNodeParticipatesOf (config : BLConfig) (source target highlightedNode : String) :
    Bool :=
  if config.highlightDegree = 0 then false
  else if config.highlightDegree = 2 then true
  else source == highlightedNode || target == highlightedNode

/-- The expression `mainNodeParticipates && nodes[source].highlighted &&
nodes[target].highlighted`: `&&` short-circuits, so `nodes[source]` is
dereferenced (throwing a `TypeError` when absent) only when the link
participates, and `nodes[target]` only when the source is also highlighted. -/
def reasonNodeOf (nodes : NodeMap) (source target : String) (participates : Bool) :
    Except JsErr Bool := do
  if participates then
    let ns ← match alGet nodes source with
      | some n => pure n
      | none => throw JsErr.typeError
    if ns.highlighted.getD false then
      let nt ← match alGet nodes target with
        | some n => pure n
        | none => throw JsErr.typeError
      pure (nt.highlighted.getD false)
    else pure false
  else pure false

/-- The semantic stroke width lookup
`links[source][target] || links[target][source] || 1`: reading
`links[source]` throws when that row is absent; a missing or zero entry falls
back to the reverse entry (throwing when `links[target]` is absent) and then
to the default 1. -/
def semanticWeightOf (links : Adj) (source target : String) : Except JsErr ℚ := do
  let rowS ← match alGet links source with
    | some r => pure r
    | none => throw JsErr.typeError
  match alGet rowS target with
  | some q => if q ≠ 0 then pure q else fallbackWeight links target source
  | none => fallbackWeight links target source

/-- Source `buildLinkProps`. Coordinates degrade to 0 when an endpoint node is
missing (`(nodes[source] && nodes[source].x) || 0`); the highlight
participation chain and the semantic stroke width lookup throw as described
on `reasonNodeOf` and `semanticWeightOf`. A JS `null` multiplied by a number
is 0, which the `fontSize` output reflects when labels are disabled. -/
def buildLinkProps (link : RenderLink) (nodes : NodeMap) (links : Adj)
    (config : BLConfig) (highlightedNode : String) (highlightedLink : Option HLink)
    (transform : ℚ) : Except JsErr LinkProps := do
  let source := link.source
  let target := link.target
  let d := buildLinkPathDefinition (coordX nodes source) (coordY nodes source)
    (coordX nodes target) (coordY nodes target) config.link.linkType
  let reasonNode ← reasonNodeOf nodes source target
    (mainNodeParticipatesOf config source target highlightedNode)
  let reasonLink :=
    match highlightedLink with
    | some hl => source == hl.source && target == hl.target
    | none => false
  let highlight := reasonNode || reasonLink
  let opacity :=
    if highlightedNode ≠ "" ||
        (match highlightedLink with | some hl => hl.source ≠ "" | none => false) then
      if highlight then config.link.opacity else config.highlightOpacity
    else jsOrQ link.opacity config.link.opacity
  let stroke :=
    if highlight then
      if config.link.highlightColor = SAME_KEYWORD then config.link.color
      else config.link.highlightColor
    else jsOrStr link.color config.link.color
  let strokeWidth0 := jsOrQ link.strokeWidth config.link.strokeWidth * (1 / transform)
  let strokeWidth ←
    if config.link.semanticStrokeWidth then do
      let linkValue ← semanticWeightOf links source target
      pure (strokeWidth0 + linkValue * strokeWidth0 / 10)
    else pure strokeWidth0
  let markerId := if config.directed then some (getMarkerId highlight transform config) else none
  let t := 1 / transform
  let labelTuple : Option String × ℚ × Option String × Option String :=
    if config.link.renderLabel then
      (linkLabelProp link config.link.labelProperty,
       jsOrQ link.fontSize config.link.fontSize,
       some (jsOrStr link.fontColor config.link.fontColor),
       some (if highlight then config.link.highlightFontWeight else config.link.fontWeight))
    else (none, 0, none, none)
  pure {
    markerId := markerId, d := d, source := source, target := target
    strokeWidth := strokeWidth, stroke := stroke, label := labelTuple.1
    mouseCursor := config.link.mouseCursor, fontColor := labelTuple.2.2.1
    fontSize := labelTuple.2.1 * t, fontWeight := labelTuple.2.2.2
    className := LINK_CLASS_NAME, opacity := opacity }

/-- Concrete input for the C1 analysis: one isolated node and no links
(valid input: nodes non-empty, zero links allowed). -/
def c1Props : GProps :=
  { data := { nodes := [{ id := "A" }], links := [] }, id := "g", config := .obj [] }

/-- Concrete valid input for the C1 witness: two nodes joined by one link. -/
def c1PropsW : GProps :=
  { data := { nodes := [{ id := "A" }, { id := "B" }]
              links := [{ source := "A", target := "B" }] }
    id := "g", config := .obj [] }

/-- Concrete inputs for the C2 witness: empty nodes; a link to a nonexistent
node; a link with a non-numeric value. -/
def c2PropsEmpty : GProps :=
  { data := { nodes := [], links := [] }, id := "g", config := .obj [] }

/-- A link whose target id names no node. -/
def c2PropsBadLink : GProps :=
  { data := { nodes := [{ id := "A" }]
              links := [{ source := "A", target := "Z" }] }
    id := "g", config := .obj [] }

/-- A link declaring a non-numeric (string) value. -/
def c2PropsBadValue : GProps :=
  { data := { nodes := [{ id := "A" }]
              links := [{ source := "A", target := "A", value := some (.str "x") }] }
    id := "g", config := .obj [] }

/-- Concrete previous state for the C3 analysis: node `"A"` with position
`x=5`, velocity `vx=2` and `highlighted=true`. -/
def c3Prev : GState :=
  { id := "g", config := .obj [], links := [], d3Links := []
    nodes := [("A", { id := "A", x := some 5, vx := some 2, highlighted := some true })]
    d3Nodes := [], highlightedNode := ""
    simulation := { width := .undef, height := .undef, gravity := .undef }
    newGraphElements := false, configUpdated := false, transform := 1 }

/-- Concrete re-initialization input for C3: same node id `"A"`, no links. -/
def c3Props : GProps :=
  { data := { nodes := [{ id := "A" }], links := [] }, id := "g", config := .obj [] }

/-- Concrete input for the C4 analysis: the consumer pre-sets `_orphan: true`
on node `"A"`, which has an incident link. -/
def c4Props : GProps :=
  { data := { nodes := [{ id := "A", orphan := some true }, { id := "B" }]
              links := [{ source := "A", target := "B" }] }
    id := "g", config := .obj [] }

/-- Concrete input for the C4 witness: a single isolated node. -/
def c4PropsW : GProps :=
  { data := { nodes := [{ id := "A" }], links := [] }, id := "g", config := .obj [] }

/-- Concrete node map for the C5 witness: three nodes, none highlighted. -/
def c5Nodes : NodeMap :=
  [("A", { id := "A" }), ("B", { id := "B" }), ("C", { id := "C" })]

/-- Concrete adjacency for the C5 witness: `A` is adjacent to `B` only. -/
def c5Links : Adj :=
  [("A", [("B", 1)]), ("B", [("A", 1)])]

/-- Concrete config for the C5 witness: `highlightDegree` 1. -/
def c5Config : JVal :=
  .obj [("highlightDegree", .num 1)]

/-- Concrete heap for the C7 witness: two node objects and the node map
referencing them. -/
def c7Heap : Heap :=
  [(1, .nodeObj { id := "A" }), (2, .nodeObj { id := "B" }),
   (10, .mapObj [("A", 1), ("B", 2)])]

/-- Concrete input for the C9 witness: a consumer config with a key unknown
to the default configuration. -/
def c9Props : GProps :=
  { data := { nodes := [{ id := "A" }], links := [] }, id := "g"
    config := .obj [("myCustomKey", .num 1)] }

/-- The comparison view of an encoded node after the ephemeral-property strip
`antiPick(node, NODE_PROPERTIES_DISCARD_TO_COMPARE)`: the `id` plus the
optional `highlighted`, `color` and `_orphan` own properties, in encoding
order. -/
def cmpFields (n : GNode) : List (String × JVal) :=
  [("id", JVal.str n.id)]
    ++ optField "highlighted" .bool n.highlighted
    ++ optField "color" .str n.color
    ++ optField "_orphan" .bool n.orphan

/-- Concrete input for the C6 counterexample: a single bare node, no links. -/
def c6Props : GProps :=
  { data := { nodes := [{ id := "A" }], links := [] }, id := "g", config := .obj [] }

/-- The state built from `c6Props` by a fresh initialization. -/
def c6CexState : GState :=
  buildGraphState c6Props none

/-- Concrete input for the C6 witness: two nodes that already declare
`highlighted: false`, joined by one bare link. -/
def c6PropsW : GProps :=
  { data := { nodes := [{ id := "A", highlighted := some false },
                        { id := "B", highlighted := some false }]
              links := [{ source := "A", target := "B" }] }
    id := "g", config := .obj [] }

/-- The state built from `c6PropsW` by a fresh initialization. -/
def c6StateW : GState :=
  buildGraphState c6PropsW none

/-- A next-data slice with a different node count than `c6StateW`, for the
added/removed-node half of the C6 witness. -/
def c6DataSmall : GraphData :=
  { nodes := [{ id := "A", highlighted := some false }], links := [] }

/-
Helper lemmas: association lists.
-/

theorem hasKey_iff {α : Type} {m : List (String × α)} {k : String} :
    hasKey m k = true ↔ ∃ p ∈ m, p.1 = k := by
  simp [hasKey, List.any_eq_true]

theorem alGet_mem {α : Type} {m : List (String × α)} {k : String} {v : α}
    (h : alGet m k = some v) : ∃ p ∈ m, p.1 = k ∧ p.2 = v := by
  unfold alGet at h
  rcases Option.map_eq_some'.mp h with ⟨p, hp, rfl⟩
  exact ⟨p, List.mem_of_find?_eq_some hp, by simpa using List.find?_some hp, rfl⟩

theorem alGet_eq_none_iff {α : Type} {m : List (String × α)} {k : String} :
    alGet m k = none ↔ hasKey m k = false := by
  unfold alGet hasKey
  simp [List.find?_eq_none, List.any_eq_true]

theorem alGet_cons {α : Type} {p : String × α} {m : List (String × α)} {k : String} :
    alGet (p :: m) k = if p.1 = k then some p.2 else alGet m k := by
  by_cases h : p.1 = k <;> simp [alGet, List.find?_cons, h]

theorem hasKey_cons {α : Type} {p : String × α} {m : List (String × α)} {k : String} :
    hasKey (p :: m) k = (p.1 == k || hasKey m k) := by
  simp [hasKey]

theorem alGet_isSome_iff {α : Type} {m : List (String × α)} {k : String} :
    (alGet m k).isSome = hasKey m k := by
  induction m with
  | nil => rfl
  | cons p ps ih =>
    rw [alGet_cons, hasKey_cons]
    by_cases h : p.1 = k <;> simp [h, ih]

theorem alGet_map_set {α : Type} {m : List (String × α)} {k k' : String} {v : α} :
    alGet (m.map fun p => if p.1 = k then (k, v) else p) k' =
      if k' = k then (if hasKey m k then some v else none) else alGet m k' := by
  induction m with
  | nil => by_cases h : k' = k <;> simp [alGet, hasKey, h]
  | cons p ps ih =>
    by_cases hp : p.1 = k <;> by_cases hk' : k' = k <;>
      simp_all [List.map_cons, alGet_cons, hasKey_cons]
    rw [if_neg (fun h => hk' h.symm), if_neg (fun h => hk' h.symm)]

theorem alGet_append_single {α : Type} {m : List (String × α)} {k k' : String} {v : α} :
    alGet (m ++ [(k, v)]) k' =
      match alGet m k' with
      | some w => some w
      | none => if k' = k then some v else none := by
  induction m with
  | nil =>
    simp only [List.nil_append, alGet_cons]
    by_cases h : k' = k
    · simp [alGet, h]
    · simp [alGet, h, Ne.symm h]
  | cons p ps ih =>
    by_cases hp : p.1 = k' <;> simp [List.cons_append, alGet_cons, hp, ih]

theorem alGet_alSet {α : Type} {m : List (String × α)} {k k' : String} {v : α} :
    alGet (alSet m k v) k' = if k' = k then some v else alGet m k' := by
  unfold alSet
  by_cases hk : hasKey m k = true
  · rw [if_pos hk, alGet_map_set]
    simp [hk]
  · rw [if_neg hk]
    rw [alGet_append_single]
    by_cases hk' : k' = k
    · subst hk'
      rw [alGet_eq_none_iff.mpr (by simpa using hk)]
    · cases hgm : alGet m k' <;> simp [hk', hgm]

theorem hasKey_alSet {α : Type} {m : List (String × α)} {k k' : String} {v : α} :
    hasKey (alSet m k v) k' = true ↔ k' = k ∨ hasKey m k' = true := by
  rw [← alGet_isSome_iff, alGet_alSet]
  by_cases h : k' = k <;> simp [h, alGet_isSome_iff]

/-
Helper lemmas: node map construction.
-/

theorem hasKey_initNodes_fold (ns : List GNode) (m0 : NodeMap) (k : String) :
    hasKey (ns.foldl (fun m n => alSet m n.id (initNode n)) m0) k = true ↔
      hasKey m0 k = true ∨ ∃ n ∈ ns, n.id = k := by
  induction ns generalizing m0 with
  | nil => simp
  | cons n ns ih =>
    rw [List.foldl_cons, ih]
    constructor
    · rintro (h | h)
      · rcases hasKey_alSet.mp h with rfl | h2
        · exact Or.inr ⟨n, by simp⟩
        · exact Or.inl h2
      · rcases h with ⟨n', hn', hid⟩
        exact Or.inr ⟨n', by simp [hn'], hid⟩
    · rintro (h | ⟨n', hn', hid⟩)
      · exact Or.inl (hasKey_alSet.mpr (Or.inr h))
      · rcases List.mem_cons.mp hn' with rfl | hmem
        · exact Or.inl (hasKey_alSet.mpr (Or.inl hid.symm))
        · exact Or.inr ⟨n', hmem, hid⟩

theorem alGet_initNodes_fold_untouched (ns : List GNode) (m0 : NodeMap) (k : String)
    (h : ∀ n ∈ ns, n.id ≠ k) :
    alGet (ns.foldl (fun m n => alSet m n.id (initNode n)) m0) k = alGet m0 k := by
  induction ns generalizing m0 with
  | nil => rfl
  | cons n ns ih =>
    rw [List.foldl_cons, ih _ (fun n' hn' => h n' (by simp [hn']))]
    rw [alGet_alSet, if_neg (fun hk => h n (by simp) hk.symm)]

theorem alGet_initNodes_fold_of_nodup {ns : List GNode} {n : GNode} (m0 : NodeMap)
    (hnd : (ns.map GNode.id).Nodup) (hmem : n ∈ ns) :
    alGet (ns.foldl (fun m n => alSet m n.id (initNode n)) m0) n.id =
      some (initNode n) := by
  induction ns generalizing m0 with
  | nil => cases hmem
  | cons n0 ns ih =>
    rw [List.map_cons, List.nodup_cons] at hnd
    rcases List.mem_cons.mp hmem with rfl | hmem'
    · rw [List.foldl_cons,
        alGet_initNodes_fold_untouched _ _ _
          (fun n' hn' hid =>
            hnd.1 (by rw [← hid]; exact List.mem_map_of_mem GNode.id hn')),
        alGet_alSet, if_pos rfl]
    · exact List.foldl_cons _ _ ▸ ih _ hnd.2 hmem'

theorem alGet_initNodes_fold_mem {ns : List GNode} {m0 : NodeMap} {k : String} {v : GNode}
    (h : alGet (ns.foldl (fun m n => alSet m n.id (initNode n)) m0) k = some v) :
    (∃ n ∈ ns, n.id = k ∧ v = initNode n) ∨ alGet m0 k = some v := by
  induction ns generalizing m0 with
  | nil => exact Or.inr h
  | cons n ns ih =>
    rw [List.foldl_cons] at h
    rcases ih h with ⟨n', hn', hid, hv⟩ | h2
    · exact Or.inl ⟨n', by simp [hn'], hid, hv⟩
    · rw [alGet_alSet] at h2
      by_cases hk : k = n.id
      · rw [if_pos hk] at h2
        exact Or.inl ⟨n, by simp, hk.symm, (Option.some.inj h2).symm⟩
      · rw [if_neg hk] at h2
        exact Or.inr h2

/-
Helper lemmas: orphan tagging.
-/

theorem alGet_tagOrphanNodes (ns : NodeMap) (mat : Adj) (k : String) :
    alGet (_tagOrphanNodes ns mat) k = (alGet ns k).map fun n =>
      if (computeNodeDegree k mat).1 = 0 ∧ (computeNodeDegree k mat).2 = 0
      then { n with orphan := some true } else n := by
  induction ns with
  | nil => rfl
  | cons p ps ih =>
    unfold _tagOrphanNodes
    unfold _tagOrphanNodes at ih
    rw [List.map_cons]
    by_cases hp : p.1 = k
    · subst hp
      by_cases hc : (computeNodeDegree p.1 mat).1 = 0 ∧ (computeNodeDegree p.1 mat).2 = 0 <;>
        simp [alGet_cons, hc]
    · by_cases hc : (computeNodeDegree p.1 mat).1 = 0 ∧ (computeNodeDegree p.1 mat).2 = 0 <;>
        simp [alGet_cons, hc, hp, ih]

theorem hasKey_tagOrphanNodes (ns : NodeMap) (mat : Adj) (k : String) :
    hasKey (_tagOrphanNodes ns mat) k = hasKey ns k := by
  rw [← alGet_isSome_iff, ← alGet_isSome_iff, alGet_tagOrphanNodes]
  cases alGet ns k <;> rfl

/-
Helper lemmas: adjacency matrix keys.
-/

theorem hasKey_ensure {α : Type} {m : List (String × α)} {s k : String} {v : α} :
    hasKey (if hasKey m s then m else alSet m s v) k = true ↔
      k = s ∨ hasKey m k = true := by
  by_cases h : hasKey m s = true
  · rw [if_pos h]
    constructor
    · exact Or.inr
    · rintro (rfl | hh)
      · exact h
      · exact hh
  · rw [if_neg h]
    exact hasKey_alSet

theorem hasKey_processOneLink {cfg : JVal} {m : Adj} {l : GLink} {k : String} :
    hasKey (processOneLink cfg m l) k = true ↔
      k = l.srcId ∨ k = l.tgtId ∨ hasKey m k = true := by
  simp only [processOneLink]
  set L1 := if hasKey m l.srcId then m else alSet m l.srcId ([] : List (String × ℚ)) with hL1
  set L2 := if hasKey L1 l.tgtId then L1 else alSet L1 l.tgtId ([] : List (String × ℚ)) with hL2
  have h1 : ∀ k', hasKey L1 k' = true ↔ k' = l.srcId ∨ hasKey m k' = true :=
    fun k' => hasKey_ensure
  have h2 : ∀ k', hasKey L2 k' = true ↔ k' = l.tgtId ∨ hasKey L1 k' = true :=
    fun k' => hasKey_ensure
  set L3 := alSet L2 l.srcId
    (alSet ((alGet L2 l.srcId).getD [])
      l.tgtId (if (cfg.get "collapsible").truthy && l.isHiddenTruthy then 0
        else l.weightValue)) with hL3
  have h3 : ∀ k', hasKey L3 k' = true ↔ k' = l.srcId ∨ hasKey L2 k' = true :=
    fun k' => hL3 ▸ hasKey_alSet
  split
  · rw [hasKey_alSet, h3, h2, h1]
    tauto
  · rw [h3, h2, h1]
    tauto

theorem hasKey_initLinks_fold {cfg : JVal} (gls : List GLink) (m0 : Adj) (k : String) :
    hasKey (gls.foldl (processOneLink cfg) m0) k = true ↔
      hasKey m0 k = true ∨ ∃ l ∈ gls, l.srcId = k ∨ l.tgtId = k := by
  induction gls generalizing m0 with
  | nil => simp
  | cons l ls ih =>
    rw [List.foldl_cons, ih]
    constructor
    · rintro (h | h)
      · rcases hasKey_processOneLink.mp h with rfl | rfl | h2
        · exact Or.inr ⟨l, by simp⟩
        · exact Or.inr ⟨l, by simp⟩
        · exact Or.inl h2
      · rcases h with ⟨l', hl', hor⟩
        exact Or.inr ⟨l', by simp [hl'], hor⟩
    · rintro (h | ⟨l', hl', hor⟩)
      · exact Or.inl (hasKey_processOneLink.mpr (Or.inr (Or.inr h)))
      · rcases List.mem_cons.mp hl' with rfl | hmem
        · rcases hor with h1 | h1
          · exact Or.inl (hasKey_processOneLink.mpr (Or.inl h1.symm))
          · exact Or.inl (hasKey_processOneLink.mpr (Or.inr (Or.inl h1.symm)))
        · exact Or.inr ⟨l', hmem, hor⟩

theorem hasKey_initializeLinks {cfg : JVal} {gls : List GLink} {k : String} :
    hasKey (_initializeLinks gls cfg) k = true ↔
      ∃ l ∈ gls, l.srcId = k ∨ l.tgtId = k := by
  unfold _initializeLinks
  rw [hasKey_initLinks_fold]
  simp [hasKey]

/-
Helper lemmas: validation and the initialization wrapper.
-/

theorem exceptBindError {ε α β : Type} (e : ε) (f : α → Except ε β) :
    (Except.error e >>= f) = Except.error e := rfl

theorem exceptBindOk {ε α β : Type} (a : α) (f : α → Except ε β) :
    (Except.ok a >>= f) = f a := rfl

theorem validateLink_ok_iff {ns : List GNode} {l : InputLink} :
    _validateLink ns l = .ok () ↔
      (∃ n ∈ ns, n.id = l.source) ∧ (∃ n ∈ ns, n.id = l.target) ∧
        linkValueOK l = true := by
  unfold _validateLink
  by_cases h1 : (ns.find? fun n => n.id == l.source).isNone
  · rw [if_pos h1]
    simp only [Option.isNone_iff_eq_none, List.find?_eq_none, beq_iff_eq] at h1
    constructor
    · intro h; cases h
    · rintro ⟨⟨n, hn, hid⟩, -⟩
      exact absurd hid (h1 n hn)
  · rw [if_neg h1]
    have hsrc : ∃ n ∈ ns, n.id = l.source := by
      cases hfind : ns.find? (fun n => n.id == l.source) with
      | none => rw [hfind] at h1; simp at h1
      | some n =>
        exact ⟨n, List.mem_of_find?_eq_some hfind, by simpa using List.find?_some hfind⟩
    by_cases h2 : (ns.find? fun n => n.id == l.target).isNone
    · rw [if_pos h2]
      simp only [Option.isNone_iff_eq_none, List.find?_eq_none, beq_iff_eq] at h2
      constructor
      · intro h; cases h
      · rintro ⟨-, ⟨n, hn, hid⟩, -⟩
        exact absurd hid (h2 n hn)
    · rw [if_neg h2]
      have htgt : ∃ n ∈ ns, n.id = l.target := by
        cases hfind : ns.find? (fun n => n.id == l.target) with
        | none => rw [hfind] at h2; simp at h2
        | some n =>
          exact ⟨n, List.mem_of_find?_eq_some hfind, by simpa using List.find?_some hfind⟩
      by_cases h3 : linkValueOK l = true
      · simp [h3, hsrc, htgt]
      · simp only [Bool.not_eq_true] at h3
        simp [h3]

theorem validateLink_error_of_valueOK {ns : List GNode} {l : InputLink} {e : GraphErr}
    (hval : linkValueOK l = true) (herr : _validateLink ns l = .error e) :
    e = .invalidSource l.source ∨ e = .invalidTarget l.target := by
  unfold _validateLink at herr
  by_cases h1 : (ns.find? fun n => n.id == l.source).isNone
  · rw [if_pos h1] at herr
    exact Or.inl (Except.error.inj herr).symm
  · rw [if_neg h1] at herr
    by_cases h2 : (ns.find? fun n => n.id == l.target).isNone
    · rw [if_pos h2] at herr
      exact Or.inr (Except.error.inj herr).symm
    · rw [if_neg h2, hval] at herr
      simp at herr

theorem validateLink_error_of_endpoints {ns : List GNode} {l : InputLink} {e : GraphErr}
    (hsrc : ∃ n ∈ ns, n.id = l.source) (htgt : ∃ n ∈ ns, n.id = l.target)
    (herr : _validateLink ns l = .error e) :
    e = .invalidLinkValue l.source l.target := by
  unfold _validateLink at herr
  rw [if_neg ?hs, if_neg ?ht] at herr
  case hs =>
    rcases hsrc with ⟨n, hn, hid⟩
    intro hnone
    rw [Option.isNone_iff_eq_none, List.find?_eq_none] at hnone
    exact absurd (by simp [hid] : (n.id == l.source) = true) (hnone n hn)
  case ht =>
    rcases htgt with ⟨n, hn, hid⟩
    intro hnone
    rw [Option.isNone_iff_eq_none, List.find?_eq_none] at hnone
    exact absurd (by simp [hid] : (n.id == l.target) = true) (hnone n hn)
  by_cases h3 : linkValueOK l = true
  · rw [h3] at herr
    simp at herr
  · simp only [Bool.not_eq_true] at h3
    rw [h3] at herr
    exact (Except.error.inj herr).symm

theorem foldValidate_ok_iff {ns : List GNode} {links : List InputLink} :
    links.foldlM (fun _ l => _validateLink ns l) () = Except.ok () ↔
      ∀ l ∈ links, _validateLink ns l = .ok () := by
  induction links with
  | nil => exact ⟨fun _ => by simp, fun _ => rfl⟩
  | cons l ls ih =>
    rw [List.foldlM_cons]
    cases hv : _validateLink ns l with
    | ok u =>
      cases u
      simpa [hv, exceptBindOk] using ih
    | error e => simp [hv, exceptBindError]

theorem foldValidate_error_endpoint {ns : List GNode} {links : List InputLink}
    (hbad : ∃ l ∈ links, (∀ n ∈ ns, n.id ≠ l.source) ∨ (∀ n ∈ ns, n.id ≠ l.target))
    (hval : ∀ l ∈ links, linkValueOK l = true) :
    ∃ i, links.foldlM (fun _ l => _validateLink ns l) () = .error (GraphErr.invalidSource i) ∨
      links.foldlM (fun _ l => _validateLink ns l) () = .error (GraphErr.invalidTarget i) := by
  induction links with
  | nil => simp at hbad
  | cons l ls ih =>
    rw [List.foldlM_cons]
    cases hv : _validateLink ns l with
    | error e =>
      rcases validateLink_error_of_valueOK (hval l (by simp)) hv with rfl | rfl
      · exact ⟨l.source, Or.inl (by simp [hv, exceptBindError])⟩
      · exact ⟨l.target, Or.inr (by simp [hv, exceptBindError])⟩
    | ok u =>
      cases u
      have hlok := validateLink_ok_iff.mp hv
      have hbad' : ∃ l' ∈ ls, (∀ n ∈ ns, n.id ≠ l'.source) ∨ (∀ n ∈ ns, n.id ≠ l'.target) := by
        rcases hbad with ⟨l', hl', hor⟩
        rcases List.mem_cons.mp hl' with rfl | hmem
        · rcases hor with hmiss | hmiss
          · rcases hlok.1 with ⟨n, hn, hid⟩
            exact absurd hid (hmiss n hn)
          · rcases hlok.2.1 with ⟨n, hn, hid⟩
            exact absurd hid (hmiss n hn)
        · exact ⟨l', hmem, hor⟩
      rcases ih hbad' (fun l' hl' => hval l' (by simp [hl'])) with ⟨i, hi⟩
      exact ⟨i, by simpa [hv, exceptBindOk] using hi⟩

theorem foldValidate_error_value {ns : List GNode} {links : List InputLink}
    (hep : ∀ l ∈ links, (∃ n ∈ ns, n.id = l.source) ∧ (∃ n ∈ ns, n.id = l.target))
    (hbad : ∃ l ∈ links, linkValueOK l = false) :
    ∃ s t, links.foldlM (fun _ l => _validateLink ns l) () =
      .error (GraphErr.invalidLinkValue s t) := by
  induction links with
  | nil => simp at hbad
  | cons l ls ih =>
    rw [List.foldlM_cons]
    cases hv : _validateLink ns l with
    | error e =>
      have := validateLink_error_of_endpoints (hep l (by simp)).1 (hep l (by simp)).2 hv
      exact ⟨l.source, l.target, by simp [hv, this, exceptBindError]⟩
    | ok u =>
      cases u
      have hlok := validateLink_ok_iff.mp hv
      have hbad' : ∃ l' ∈ ls, linkValueOK l' = false := by
        rcases hbad with ⟨l', hl', hfalse⟩
        rcases List.mem_cons.mp hl' with rfl | hmem
        · rw [hlok.2.2] at hfalse; cases hfalse
        · exact ⟨l', hmem, hfalse⟩
      rcases ih (fun l' hl' => hep l' (by simp [hl'])) hbad' with ⟨s, t, hst⟩
      exact ⟨s, t, by simpa [hv, exceptBindOk] using hst⟩

theorem validateGraphData_ok_iff {d : GraphData} :
    _validateGraphData d = .ok () ↔
      d.nodes ≠ [] ∧ ∀ l ∈ d.links, _validateLink d.nodes l = .ok () := by
  unfold _validateGraphData
  by_cases h : d.nodes.isEmpty
  · rw [if_pos h]
    simp [List.isEmpty_iff.mp h]
  · rw [if_neg h]
    rw [foldValidate_ok_iff]
    simp [List.isEmpty_iff] at h
    simp [h]

theorem initializeGraphState_eq_error {props : GProps} {st : Option GState} {e : GraphErr}
    (h : _validateGraphData props.data = .error e) :
    initializeGraphState props st = .error e := by
  unfold initializeGraphState
  rw [h]
  rfl

theorem initializeGraphState_eq_ok {props : GProps} {st : Option GState}
    (h : _validateGraphData props.data = .ok ()) :
    initializeGraphState props st = .ok (buildGraphState props st) := by
  unfold initializeGraphState
  rw [h]
  rfl

theorem initializeGraphState_ok_inv {props : GProps} {st : Option GState} {s : GState}
    (h : initializeGraphState props st = .ok s) :
    _validateGraphData props.data = .ok () ∧ s = buildGraphState props st := by
  unfold initializeGraphState at h
  cases hv : _validateGraphData props.data with
  | ok u =>
    cases u
    rw [hv] at h
    refine ⟨rfl, ?_⟩
    have : (pure (buildGraphState props st) : Except GraphErr GState) = .ok s := h
    exact (Except.ok.inj this).symm
  | error e =>
    rw [hv] at h
    cases h

/-
Helper lemmas: the shape of the built state.
-/

theorem buildGraphState_nodes_def (props : GProps) (ost : Option GState) :
    (buildGraphState props ost).nodes =
      _tagOrphanNodes (_initializeNodes (graphNodesOf props ost))
        (_initializeLinks (graphLinksOf props ost) (newConfigOf props)) := rfl

theorem buildGraphState_links_def (props : GProps) (ost : Option GState) :
    (buildGraphState props ost).links =
      _initializeLinks (graphLinksOf props ost) (newConfigOf props) := rfl

theorem buildGraphState_d3Nodes_def (props : GProps) (ost : Option GState) :
    (buildGraphState props ost).d3Nodes = (graphNodesOf props ost).map initNode := rfl

theorem buildGraphState_d3Links_def (props : GProps) (ost : Option GState) :
    (buildGraphState props ost).d3Links = graphLinksOf props ost := rfl

theorem nodeRebuild_id {st : GState} {n : GNode}
    (hwf : ∀ p ∈ st.nodes, p.2.id = p.1) :
    (match alGet st.nodes n.id with
     | some prev => overlayPrevNode n prev
     | none => n).id = n.id := by
  cases hget : alGet st.nodes n.id with
  | none => rfl
  | some prev =>
    rcases alGet_mem hget with ⟨p, hp, hpk, hpv⟩
    show prev.id = n.id
    rw [← hpv, hwf p hp, hpk]

theorem nodeRebuild_orphan {st : GState} {n : GNode} :
    (match alGet st.nodes n.id with
     | some prev => overlayPrevNode n prev
     | none => n).orphan = n.orphan := by
  cases alGet st.nodes n.id <;> rfl

theorem graphNodesOf_ids {props : GProps} {ost : Option GState}
    (hwf : ∀ st ∈ ost, ∀ p ∈ st.nodes, p.2.id = p.1) (k : String) :
    (∃ g ∈ graphNodesOf props ost, g.id = k) ↔ ∃ n ∈ props.data.nodes, n.id = k := by
  cases ost with
  | none => simp [graphNodesOf]
  | some st =>
    simp only [graphNodesOf, List.mem_map]
    constructor
    · rintro ⟨g, ⟨n, hn, rfl⟩, hid⟩
      exact ⟨n, hn, by rw [← hid, nodeRebuild_id (hwf st rfl)]⟩
    · rintro ⟨n, hn, hid⟩
      exact ⟨_, ⟨n, hn, rfl⟩, by rw [nodeRebuild_id (hwf st rfl), hid]⟩

theorem hasKey_buildGraphState_nodes {props : GProps} {ost : Option GState}
    (hwf : ∀ st ∈ ost, ∀ p ∈ st.nodes, p.2.id = p.1) (k : String) :
    hasKey (buildGraphState props ost).nodes k = true ↔
      k ∈ props.data.nodes.map GNode.id := by
  rw [buildGraphState_nodes_def, hasKey_tagOrphanNodes]
  unfold _initializeNodes
  rw [hasKey_initNodes_fold]
  have hnil : hasKey ([] : NodeMap) k = false := rfl
  rw [hnil]
  simp only [Bool.false_eq_true, false_or, List.mem_map]
  constructor
  · rintro ⟨g, hg, hid⟩
    rcases (graphNodesOf_ids hwf k).mp ⟨g, hg, hid⟩ with ⟨n, hn, hnid⟩
    exact ⟨n, hn, hnid⟩
  · rintro ⟨n, hn, hnid⟩
    exact (graphNodesOf_ids hwf k).mpr ⟨n, hn, hnid⟩

/-- Claim C1. The node-map half of the claim holds, but the adjacency half is
refuted: `_initializeLinks` creates a row only for the endpoints of links, so
a node with no incident links has no entry in the matrix. At the valid input
with a single node `"A"` and zero links, the returned state's node map owns
key `"A"` while its adjacency matrix does not. -/
theorem C1_counterexample :
    (initializeGraphState c1Props none).map
      (fun s => (hasKey s.nodes "A", hasKey s.links "A")) = .ok (true, false) := by
  rfl

/-- Claim C1 (amended): for every valid input, the returned node map's key
set equals the set of input node ids, and - on a first initialization - the
adjacency matrix contains an entry exactly for the nodes incident to at least
one link (as source or target); isolated nodes get no entry. The previous
state, when present, is assumed to key its node map by the nodes' own ids, as
every state this module produces does. -/
theorem C1_amended_theorem (props : GProps) (ost : Option GState) (s : GState)
    (hwf : ∀ st ∈ ost, ∀ p ∈ st.nodes, p.2.id = p.1)
    (hinit : initializeGraphState props ost = .ok s) :
    (∀ k, hasKey s.nodes k = true ↔ k ∈ props.data.nodes.map GNode.id) ∧
    (ost = none →
      ∀ k, hasKey s.links k = true ↔
        ∃ l ∈ props.data.links, l.source = k ∨ l.target = k) := by
  obtain ⟨hval, rfl⟩ := initializeGraphState_ok_inv hinit
  refine ⟨fun k => hasKey_buildGraphState_nodes hwf k, ?_⟩
  rintro rfl
  intro k
  rw [buildGraphState_links_def, hasKey_initializeLinks]
  simp only [graphLinksOf, List.mem_map]
  constructor
  · rintro ⟨gl, ⟨l, hl, rfl⟩, hor⟩
    exact ⟨l, hl, by simpa [GLink.srcId, GLink.tgtId] using hor⟩
  · rintro ⟨l, hl, hor⟩
    exact ⟨GLink.raw l, ⟨l, hl, rfl⟩, by simpa [GLink.srcId, GLink.tgtId] using hor⟩

theorem validateGraphData_eq_fold {d : GraphData} (hne : d.nodes ≠ []) :
    _validateGraphData d = d.links.foldlM (fun _ l => _validateLink d.nodes l) () := by
  unfold _validateGraphData
  rw [if_neg (fun h => hne (List.isEmpty_iff.mp h))]

/-- Claim C2: initialization with an empty (the embedding conflates "absent"
with empty, both hit `!data.nodes || !data.nodes.length`) nodes collection
always fails with `InsufficientDataError`; a link endpoint naming no node
fails with `InvalidLinkError` (provided no link also carries a non-numeric
value, in which case whichever offending link comes first in array order
wins); a non-numeric link value fails with `InvalidLinkValueError` (provided
all endpoints resolve); and every validation error aborts
`initializeGraphState` itself with exactly that error - the `Except` result
carries no partially built state, since validation runs before any
construction. -/
theorem C2_theorem (props : GProps) (ost : Option GState) :
    (props.data.nodes = [] →
      initializeGraphState props ost = .error .insufficientData) ∧
    (∀ e, _validateGraphData props.data = .error e →
      initializeGraphState props ost = .error e) ∧
    (props.data.nodes ≠ [] →
      (∃ l ∈ props.data.links,
        (∀ n ∈ props.data.nodes, n.id ≠ l.source) ∨
          (∀ n ∈ props.data.nodes, n.id ≠ l.target)) →
      (∀ l ∈ props.data.links, linkValueOK l = true) →
      ∃ i, initializeGraphState props ost = .error (.invalidSource i) ∨
        initializeGraphState props ost = .error (.invalidTarget i)) ∧
    (props.data.nodes ≠ [] →
      (∀ l ∈ props.data.links,
        (∃ n ∈ props.data.nodes, n.id = l.source) ∧
          (∃ n ∈ props.data.nodes, n.id = l.target)) →
      (∃ l ∈ props.data.links, linkValueOK l = false) →
      ∃ src tgt,
        initializeGraphState props ost = .error (.invalidLinkValue src tgt)) := by
  refine ⟨?_, ?_, ?_, ?_⟩
  · intro hnil
    apply initializeGraphState_eq_error
    unfold _validateGraphData
    rw [if_pos (by simp [hnil])]
  · intro e he
    exact initializeGraphState_eq_error he
  · intro hne hbad hval
    rcases foldValidate_error_endpoint hbad hval with ⟨i, hi | hi⟩
    · exact ⟨i, Or.inl (initializeGraphState_eq_error
        ((validateGraphData_eq_fold hne).trans hi))⟩
    · exact ⟨i, Or.inr (initializeGraphState_eq_error
        ((validateGraphData_eq_fold hne).trans hi))⟩
  · intro hne hep hbad
    rcases foldValidate_error_value hep hbad with ⟨src, tgt, hst⟩
    exact ⟨src, tgt, initializeGraphState_eq_error
      ((validateGraphData_eq_fold hne).trans hst)⟩

/-- Witness for C2 at three concrete inputs: empty nodes, a dangling target
id, and a string-valued link. -/
theorem C2_witness :
    (initializeGraphState c2PropsEmpty none = .error .insufficientData) ∧
    (∃ i, initializeGraphState c2PropsBadLink none = .error (.invalidSource i) ∨
      initializeGraphState c2PropsBadLink none = .error (.invalidTarget i)) ∧
    (∃ src tgt,
      initializeGraphState c2PropsBadValue none = .error (.invalidLinkValue src tgt)) := by
  refine ⟨(C2_theorem c2PropsEmpty none).1 rfl, ?_, ?_⟩
  · exact (C2_theorem c2PropsBadLink none).2.2.1 (by decide) (by decide) (by decide)
  · exact (C2_theorem c2PropsBadValue none).2.2.2 (by decide) (by decide) (by decide)

/-- Claim C3. The empty-links half of the claim holds, but re-initialization
does not preserve `highlighted`: `_initializeNodes` unconditionally sets
`node.highlighted = false` on every node after the whitelisted overlay. At
the concrete previous state whose node `"A"` has `highlighted=true`, `x=5`,
`vx=2`, the re-initialized node comes back with `highlighted=false` (while
`x` and `vx` are preserved). -/
theorem C3_counterexample :
    (initializeGraphState c3Props (some c3Prev)).map
      (fun s => (alGet s.nodes "A").map fun n => (n.highlighted, n.x, n.vx)) =
    .ok (some (some false, some 5, some 2)) := by
  rfl

/-- Claim C3 (amended): re-initialization preserves, for every node whose id
exists in both the new input and the previous state, that node's `x`, `y`,
`vx`, `vy` (and `index`) values from the previous state - but `highlighted`
is reset to `false` on every node, not preserved. Initialization never fails
when the links sequence is empty and the nodes sequence is not. The input
node ids are assumed distinct and the previous state's node map keyed by the
nodes' own ids, as the module guarantees. -/
theorem C3_amended_theorem :
    (∀ (props : GProps) (st : GState) (s : GState),
      (props.data.nodes.map GNode.id).Nodup →
      (∀ p ∈ st.nodes, p.2.id = p.1) →
      initializeGraphState props (some st) = .ok s →
      ∀ n ∈ props.data.nodes, ∀ prev, alGet st.nodes n.id = some prev →
        ∃ out, alGet s.nodes n.id = some out ∧
          out.x = some ((prev.x <|> n.x).getD 0) ∧
          out.y = some ((prev.y <|> n.y).getD 0) ∧
          out.vx = (prev.vx <|> n.vx) ∧
          out.vy = (prev.vy <|> n.vy) ∧
          out.index = (prev.index <|> n.index) ∧
          out.highlighted = some false) ∧
    (∀ (props : GProps) (ost : Option GState),
      props.data.nodes ≠ [] → props.data.links = [] →
      initializeGraphState props ost = .ok (buildGraphState props ost)) := by
  constructor
  · intro props st s hnodup hwf hinit n hn prev hprev
    obtain ⟨hval, rfl⟩ := initializeGraphState_ok_inv hinit
    have hlist : graphNodesOf props (some st) =
        props.data.nodes.map fun m => match alGet st.nodes m.id with
          | some prev => overlayPrevNode m prev
          | none => m := rfl
    have hidg : ∀ m : GNode,
        (match alGet st.nodes m.id with
         | some prev => overlayPrevNode m prev
         | none => m).id = m.id := fun m => nodeRebuild_id hwf
    have hnodup' : ((props.data.nodes.map fun m => match alGet st.nodes m.id with
        | some prev => overlayPrevNode m prev
        | none => m).map GNode.id).Nodup := by
      rw [List.map_map]
      have heq : (GNode.id ∘ fun m : GNode => match alGet st.nodes m.id with
          | some prev => overlayPrevNode m prev
          | none => m) = GNode.id := funext hidg
      rw [heq]
      exact hnodup
    have hget := alGet_initNodes_fold_of_nodup ([] : NodeMap) hnodup'
      (List.mem_map_of_mem (fun m : GNode => match alGet st.nodes m.id with
        | some prev => overlayPrevNode m prev
        | none => m) hn)
    rw [hidg n] at hget
    rw [buildGraphState_nodes_def, alGet_tagOrphanNodes, hlist]
    rw [show _initializeNodes (props.data.nodes.map fun m => match alGet st.nodes m.id with
        | some prev => overlayPrevNode m prev
        | none => m) =
      (props.data.nodes.map fun m => match alGet st.nodes m.id with
        | some prev => overlayPrevNode m prev
        | none => m).foldl (fun m n => alSet m n.id (initNode n)) [] from rfl]
    rw [hget]
    rw [Option.map_some']
    refine ⟨_, rfl, ?_⟩
    rw [hprev]
    split <;> simp [initNode, overlayPrevNode]
  · intro props ost hne hnil
    apply initializeGraphState_eq_ok
    rw [validateGraphData_eq_fold hne, hnil]
    rfl

/-- Witness for C3 (amended) at the concrete previous state `c3Prev`. -/
theorem C3_witness :
    (∃ out, alGet (buildGraphState c3Props (some c3Prev)).nodes "A" = some out ∧
      out.x = some 5 ∧ out.y = some 0 ∧ out.vx = some 2 ∧ out.vy = none ∧
      out.index = none ∧ out.highlighted = some false) ∧
    initializeGraphState c3Props (some c3Prev) =
      .ok (buildGraphState c3Props (some c3Prev)) := by
  have hinit : initializeGraphState c3Props (some c3Prev) =
      .ok (buildGraphState c3Props (some c3Prev)) :=
    (C3_amended_theorem).2 c3Props (some c3Prev) (by decide) rfl
  refine ⟨?_, hinit⟩
  have h := (C3_amended_theorem).1 c3Props c3Prev (buildGraphState c3Props (some c3Prev))
    (by decide) (by decide) hinit { id := "A" } (by simp [c3Props])
    { id := "A", x := some 5, vx := some 2, highlighted := some true } (by rfl)
  exact h

/-- Claim C4. The forward half holds (zero in- and out-degree always yields
`_orphan=true`), but the "only if" half is refuted: `_tagOrphanNodes` never
clears a pre-existing `_orphan` property, it only ever adds the tag. With
input node `"A"` declaring `_orphan: true` and an incident link `"A"→"B"`,
the returned node still carries `_orphan=true` although its degree pair is
`(1, 1)`. -/
theorem C4_counterexample :
    (initializeGraphState c4Props none).map
      (fun s => ((alGet s.nodes "A").map GNode.orphan, computeNodeDegree "A" s.links)) =
    .ok (some (some true), (1, 1)) := by
  rfl

/-- Claim C4 (amended): in the node map returned by `initializeGraphState`,
every node whose in-degree and out-degree in the adjacency matrix are both
zero carries `_orphan=true`; a node with at least one incident link carries
`_orphan=true` only if the corresponding input node already declared
`_orphan=true` - the tag is added, never recomputed or cleared. The previous
state, when present, is assumed to key its node map by the nodes' own ids. -/
theorem C4_amended_theorem (props : GProps) (ost : Option GState) (s : GState)
    (hwf : ∀ st ∈ ost, ∀ p ∈ st.nodes, p.2.id = p.1)
    (hinit : initializeGraphState props ost = .ok s) :
    ∀ k n, alGet s.nodes k = some n →
      (computeNodeDegree k s.links = (0, 0) → n.orphan = some true) ∧
      (computeNodeDegree k s.links ≠ (0, 0) → n.orphan = some true →
        ∃ m ∈ props.data.nodes, m.id = k ∧ m.orphan = some true) := by
  obtain ⟨hval, rfl⟩ := initializeGraphState_ok_inv hinit
  intro k n halget
  rw [buildGraphState_nodes_def, alGet_tagOrphanNodes] at halget
  rw [buildGraphState_links_def]
  rcases Option.map_eq_some'.mp halget with ⟨pre, hpre, htag⟩
  constructor
  · intro hdeg
    rw [if_pos (by simpa [Prod.ext_iff] using hdeg)] at htag
    rw [← htag]
  · intro hdeg horph
    rw [if_neg (by simpa [Prod.ext_iff] using hdeg)] at htag
    subst htag
    rcases alGet_initNodes_fold_mem hpre with ⟨g, hg, hgid, rfl⟩ | hnil
    · have horph' : g.orphan = some true := horph
      cases ost with
      | none => exact ⟨g, hg, hgid, horph'⟩
      | some st =>
        simp only [graphNodesOf, List.mem_map] at hg
        rcases hg with ⟨m, hm, rfl⟩
        refine ⟨m, hm, ?_, ?_⟩
        · rw [← hgid, nodeRebuild_id (hwf st rfl)]
        · rw [← horph', nodeRebuild_orphan]
    · cases hnil

/-- Witness for C4 (amended): a single isolated node gets tagged. -/
theorem C4_witness :
    ∃ n, alGet (buildGraphState c4PropsW none).nodes "A" = some n ∧
      n.orphan = some true := by
  have hinit : initializeGraphState c4PropsW none = .ok (buildGraphState c4PropsW none) :=
    initializeGraphState_eq_ok (by rfl)
  have hget : alGet (buildGraphState c4PropsW none).nodes "A" =
      some { id := "A", x := some 0, y := some 0, highlighted := some false
             orphan := some true } := by rfl
  refine ⟨_, hget, ?_⟩
  exact (C4_amended_theorem c4PropsW none _ (fun st h => by cases h) hinit "A" _ hget).1
    (by rfl)

theorem alGet_setNodeHighlight_self (m : NodeMap) (k : String) (value : Bool) :
    ∃ n, alGet (setNodeHighlight m k value) k = some n ∧ n.highlighted = some value := by
  unfold setNodeHighlight
  rw [alGet_alSet, if_pos rfl]
  exact ⟨_, rfl, by cases alGet m k <;> rfl⟩

theorem alGet_setNodeHighlight_other (m : NodeMap) (k : String) (value : Bool)
    {k' : String} (h : k' ≠ k) :
    alGet (setNodeHighlight m k value) k' = alGet m k' := by
  unfold setNodeHighlight
  rw [alGet_alSet, if_neg h]

theorem foldHighlight_notmem (ks : List String) (acc : NodeMap) (value : Bool)
    {k : String} (hk : k ∉ ks) :
    alGet (ks.foldl (fun acc linkId => setNodeHighlight acc linkId value) acc) k =
      alGet acc k := by
  induction ks generalizing acc with
  | nil => rfl
  | cons r rs ih =>
    rw [List.foldl_cons, ih _ (fun h => hk (by simp [h]))]
    exact alGet_setNodeHighlight_other _ _ _ (fun h => hk (by simp [h]))

theorem foldHighlight_mem (ks : List String) (acc : NodeMap) (value : Bool)
    {k : String} (hk : k ∈ ks) :
    ∃ n, alGet (ks.foldl (fun acc linkId => setNodeHighlight acc linkId value) acc) k =
      some n ∧ n.highlighted = some value := by
  induction ks generalizing acc with
  | nil => cases hk
  | cons r rs ih =>
    rw [List.foldl_cons]
    by_cases hmem : k ∈ rs
    · exact ih _ hmem
    · have hkr : k = r := by
        rcases List.mem_cons.mp hk with h | h
        · exact h
        · exact absurd h hmem
      subst hkr
      rw [foldHighlight_notmem _ _ _ hmem]
      exact alGet_setNodeHighlight_self _ _ _

/-- Claim C5: with `highlightDegree !== 0`, `updateNodeHighlightedValue`
returns a node map in which the named node and every node adjacent to it in
the adjacency matrix (the keys of its row) carry `highlighted = value` and
every other key's binding is untouched; with `highlightDegree === 0` (or when
the node has no adjacency row) only the named node is updated. The returned
highlighted-node id is the given id when activating and `""` when
deactivating. -/
theorem C5_theorem (nodes : NodeMap) (links : Adj) (config : JVal) (id : String)
    (value : Bool) :
    ((updateNodeHighlightedValue nodes links config id value).2 =
      if value then id else "") ∧
    (jsEq (config.get "highlightDegree") (.num 0) = false →
      (∃ n, alGet (updateNodeHighlightedValue nodes links config id value).1 id =
          some n ∧ n.highlighted = some value) ∧
      (∀ nb ∈ ((alGet links id).getD []).map Prod.fst,
        ∃ n, alGet (updateNodeHighlightedValue nodes links config id value).1 nb =
          some n ∧ n.highlighted = some value) ∧
      (∀ k, k ≠ id → k ∉ ((alGet links id).getD []).map Prod.fst →
        alGet (updateNodeHighlightedValue nodes links config id value).1 k =
          alGet nodes k)) ∧
    (jsEq (config.get "highlightDegree") (.num 0) = true →
      (∃ n, alGet (updateNodeHighlightedValue nodes links config id value).1 id =
          some n ∧ n.highlighted = some value) ∧
      (∀ k, k ≠ id →
        alGet (updateNodeHighlightedValue nodes links config id value).1 k =
          alGet nodes k)) := by
  refine ⟨?_, ?_, ?_⟩
  · unfold updateNodeHighlightedValue
    by_cases hcond : ((alGet links id).isSome &&
        !(jsEq (config.get "highlightDegree") (.num 0))) = true <;>
      simp [hcond]
  · intro hd
    cases hrow : alGet links id with
    | none =>
      have hcond : ((alGet links id).isSome &&
          !(jsEq (config.get "highlightDegree") (.num 0))) = false := by
        simp [hrow]
      unfold updateNodeHighlightedValue
      rw [hcond]
      simp only [Bool.false_eq_true, if_false, hrow]
      refine ⟨alGet_setNodeHighlight_self _ _ _, ?_, ?_⟩
      · intro nb hnb
        simp at hnb
      · intro k hkid _
        exact alGet_setNodeHighlight_other _ _ _ hkid
    | some row =>
      have hcond : ((alGet links id).isSome &&
          !(jsEq (config.get "highlightDegree") (.num 0))) = true := by
        simp [hrow, hd]
      unfold updateNodeHighlightedValue
      rw [hcond]
      simp only [if_true, hrow, Option.getD_some]
      refine ⟨?_, ?_, ?_⟩
      · by_cases hmem : id ∈ row.map Prod.fst
        · exact foldHighlight_mem _ _ _ hmem
        · rw [foldHighlight_notmem _ _ _ hmem]
          exact alGet_setNodeHighlight_self _ _ _
      · intro nb hnb
        exact foldHighlight_mem _ _ _ hnb
      · intro k hkid hknb
        rw [foldHighlight_notmem _ _ _ hknb]
        exact alGet_setNodeHighlight_other _ _ _ hkid
  · intro hd
    have hcond : ((alGet links id).isSome &&
        !(jsEq (config.get "highlightDegree") (.num 0))) = false := by
      simp [hd]
    unfold updateNodeHighlightedValue
    rw [hcond]
    simp only [Bool.false_eq_true, if_false]
    exact ⟨alGet_setNodeHighlight_self _ _ _,
      fun k hkid => alGet_setNodeHighlight_other _ _ _ hkid⟩

/-- Witness for C5 at the concrete three-node map: activating on `"A"`
highlights `"A"` and its neighbor `"B"` and leaves `"C"` untouched. -/
theorem C5_witness :
    ((updateNodeHighlightedValue c5Nodes c5Links c5Config "A" true).2 =
      if true then "A" else "") ∧
    (∃ n, alGet (updateNodeHighlightedValue c5Nodes c5Links c5Config "A" true).1 "A" =
      some n ∧ n.highlighted = some true) ∧
    (∃ n, alGet (updateNodeHighlightedValue c5Nodes c5Links c5Config "A" true).1 "B" =
      some n ∧ n.highlighted = some true) ∧
    (alGet (updateNodeHighlightedValue c5Nodes c5Links c5Config "A" true).1 "C" =
      alGet c5Nodes "C") := by
  have h := C5_theorem c5Nodes c5Links c5Config "A" true
  have h2 := h.2.1 (by rfl)
  exact ⟨h.1, h2.1, h2.2.1 "B" (by decide), h2.2.2 "C" (by decide) (by decide)⟩

/-
Helper lemmas: the heap model.
-/

theorem heapVal_cons {b : Addr} {o : HObj} {h : Heap} {a : Addr} :
    Heap.val ((b, o) :: h) a = if b = a then some o else Heap.val h a := by
  by_cases hb : b = a <;> simp [Heap.val, List.find?_cons, hb]

theorem mem_le_maxAddr {h : Heap} {p : Addr × HObj} (hp : p ∈ h) :
    p.1 ≤ maxAddr h := by
  induction h with
  | nil => cases hp
  | cons q hs ih =>
    have hmax : maxAddr (q :: hs) = max q.1 (maxAddr hs) := rfl
    rcases List.mem_cons.mp hp with rfl | hmem
    · rw [hmax]; exact le_max_left _ _
    · rw [hmax]; exact le_trans (ih hmem) (le_max_right _ _)

theorem heapVal_mem {h : Heap} {a : Addr} {o : HObj} (hv : Heap.val h a = some o) :
    (a, o) ∈ h := by
  unfold Heap.val at hv
  rcases Option.map_eq_some'.mp hv with ⟨p, hp, rfl⟩
  have hpa : p.1 = a := by simpa using List.find?_some hp
  have := List.mem_of_find?_eq_some hp
  rw [show p = (a, p.2) from Prod.ext hpa rfl] at this
  exact this

theorem heapVal_none_of_gt {h : Heap} {a : Addr} (ha : maxAddr h < a) :
    Heap.val h a = none := by
  unfold Heap.val
  rw [Option.map_eq_none', List.find?_eq_none]
  intro p hp
  simp only [beq_iff_eq]
  exact Nat.ne_of_lt (lt_of_le_of_lt (mem_le_maxAddr hp) ha)

theorem heap_lt_fresh {h : Heap} {a : Addr} (hsome : (Heap.val h a).isSome = true) :
    a < maxAddr h + 1 := by
  rcases Option.isSome_iff_exists.mp hsome with ⟨o, ho⟩
  exact Nat.lt_succ_of_le (mem_le_maxAddr (heapVal_mem ho))

theorem heapVal_setAt_other {h : Heap} {a0 : Addr} {o : HObj} {a : Addr}
    (ha : a ≠ a0) : Heap.val (h.setAt a0 o) a = Heap.val h a := by
  induction h with
  | nil => rfl
  | cons p ps ih =>
    unfold Heap.setAt
    unfold Heap.setAt at ih
    rw [List.map_cons]
    by_cases hp : p.1 = a0
    · rw [if_pos (by simpa using hp)]
      rw [heapVal_cons, if_neg (fun hcontra => ha hcontra.symm), heapVal_cons,
        if_neg (fun hcontra => ha (hp ▸ hcontra).symm)]
      exact ih
    · rw [if_neg (by simpa using hp)]
      rw [heapVal_cons, heapVal_cons]
      by_cases hpa : p.1 = a
      · rw [if_pos hpa, if_pos hpa]
      · rw [if_neg hpa, if_neg hpa]
        exact ih

theorem maxAddr_le_cons {b : Addr} {o : HObj} {h : Heap} :
    maxAddr h ≤ maxAddr ((b, o) :: h) := by
  have : maxAddr ((b, o) :: h) = max b (maxAddr h) := rfl
  rw [this]
  exact le_max_right _ _

theorem foldHeapHighlight_frame (ks : List String) (value : Bool) (aMap : Addr)
    (hAcc : Heap) {a : Addr}
    (hsome : (Heap.val hAcc a).isSome = true) (hne : a ≠ aMap) :
    Heap.val (ks.foldl
      (fun hAcc linkId =>
        let curFields := heapMapFields hAcc aMap
        let updatedNode : GNode :=
          { heapNodeAt hAcc curFields linkId with highlighted := some value }
        let pA := hAcc.alloc (.nodeObj updatedNode)
        pA.1.setAt aMap (.mapObj (alSet curFields linkId pA.2))) hAcc) a =
      Heap.val hAcc a := by
  induction ks generalizing hAcc with
  | nil => rfl
  | cons r rs ih =>
    rw [List.foldl_cons]
    have hfresh : a ≠ maxAddr hAcc + 1 := Nat.ne_of_lt (heap_lt_fresh hsome)
    have hstep : Heap.val
        ((hAcc.alloc (.nodeObj { heapNodeAt hAcc (heapMapFields hAcc aMap) r with
            highlighted := some value })).1.setAt aMap
          (.mapObj (alSet (heapMapFields hAcc aMap) r
            (hAcc.alloc (.nodeObj { heapNodeAt hAcc (heapMapFields hAcc aMap) r with
              highlighted := some value })).2))) a = Heap.val hAcc a := by
      rw [heapVal_setAt_other hne]
      show Heap.val ((maxAddr hAcc + 1, _) :: hAcc) a = _
      rw [heapVal_cons, if_neg (fun hcontra => hfresh hcontra.symm)]
    rw [ih _ (by rw [hstep]; exact hsome), hstep]

/-- Claim C7: `updateNodeHighlightedValue` never mutates the node map it
receives nor any node record reachable from it - in the heap model, every
address allocated before the call still holds exactly the same object
afterwards (the only in-place `Object.assign` targets the freshly allocated
result map) - and the returned map is a new object: its address was not
allocated in the input heap. -/
theorem C7_theorem (h : Heap) (nodesA : Addr) (links : Adj) (config : JVal)
    (id : String) (value : Bool) :
    (∀ a, (Heap.val h a).isSome = true →
      Heap.val (updateNodeHighlightedValueH h nodesA links config id value).1 a =
        Heap.val h a) ∧
    Heap.val h (updateNodeHighlightedValueH h nodesA links config id value).2.1 =
      none := by
  unfold updateNodeHighlightedValueH
  set n1 : HObj := .nodeObj
    { heapNodeAt h (heapMapFields h nodesA) id with highlighted := some value } with hn1
  have ha1 : (h.alloc n1).2 = maxAddr h + 1 := rfl
  have hh1 : (h.alloc n1).1 = (maxAddr h + 1, n1) :: h := rfl
  set m2 : HObj := .mapObj (alSet (heapMapFields h nodesA) id (h.alloc n1).2) with hm2
  have hfr1 : ∀ a, (Heap.val h a).isSome = true →
      Heap.val ((h.alloc n1).1.alloc m2).1 a = Heap.val h a := by
    intro a hsome
    have hlt1 : a < maxAddr h + 1 := heap_lt_fresh hsome
    have hsomeh1 : Heap.val (h.alloc n1).1 a = Heap.val h a := by
      rw [hh1, heapVal_cons, if_neg (fun hcontra => Nat.ne_of_lt hlt1 hcontra.symm)]
    have hlt2 : a < maxAddr (h.alloc n1).1 + 1 :=
      heap_lt_fresh (by rw [hsomeh1]; exact hsome)
    show Heap.val ((maxAddr (h.alloc n1).1 + 1, m2) :: (h.alloc n1).1) a = _
    rw [heapVal_cons, if_neg (fun hcontra => Nat.ne_of_lt hlt2 hcontra.symm), hsomeh1]
  have hfresh2 : Heap.val h ((h.alloc n1).1.alloc m2).2 = none := by
    apply heapVal_none_of_gt
    show maxAddr h < maxAddr (h.alloc n1).1 + 1
    exact Nat.lt_succ_of_le (le_trans (hh1 ▸ maxAddr_le_cons) (le_of_eq rfl))
  by_cases hcond : ((alGet links id).isSome &&
      !(jsEq (config.get "highlightDegree") (.num 0))) = true
  · rw [if_pos hcond]
    refine ⟨?_, hfresh2⟩
    intro a hsome
    have hne2 : a ≠ ((h.alloc n1).1.alloc m2).2 := by
      intro hcontra
      rw [hcontra] at hsome
      rw [hfresh2] at hsome
      cases hsome
    rw [foldHeapHighlight_frame _ _ _ _ (by rw [hfr1 a hsome]; exact hsome) hne2]
    exact hfr1 a hsome
  · rw [if_neg hcond]
    exact ⟨hfr1, hfresh2⟩

/-- Witness for C7 at the concrete three-object heap: the stored node map
object (address 10) and node `"A"` (address 1) are untouched, and the
returned map address is fresh. -/
theorem C7_witness :
    (Heap.val (updateNodeHighlightedValueH c7Heap 10 [("A", [("B", 1)])]
        (.obj [("highlightDegree", .num 1)]) "A" true).1 10 = Heap.val c7Heap 10) ∧
    (Heap.val (updateNodeHighlightedValueH c7Heap 10 [("A", [("B", 1)])]
        (.obj [("highlightDegree", .num 1)]) "A" true).1 1 = Heap.val c7Heap 1) ∧
    (Heap.val c7Heap (updateNodeHighlightedValueH c7Heap 10 [("A", [("B", 1)])]
        (.obj [("highlightDegree", .num 1)]) "A" true).2.1 = none) := by
  have h := C7_theorem c7Heap 10 [("A", [("B", 1)])]
    (.obj [("highlightDegree", .num 1)]) "A" true
  exact ⟨h.1 10 (by rfl), h.1 1 (by rfl), h.2⟩

/-
Helper lemmas: buildLinkProps.
-/

theorem exceptBindPure {ε α β : Type} (a : α) (f : α → Except ε β) :
    ((pure a : Except ε α) >>= f) = f a := rfl

theorem exceptPureEq {ε α : Type} (a : α) :
    (pure a : Except ε α) = .ok a := rfl

theorem reasonNodeOf_false (nodes : NodeMap) (s t : String) :
    reasonNodeOf nodes s t false = .ok false := rfl

theorem reasonNodeOf_ok_of_present {nodes : NodeMap} {s t : String} (p : Bool)
    (hs : (alGet nodes s).isSome = true) (ht : (alGet nodes t).isSome = true) :
    ∃ b, reasonNodeOf nodes s t p = .ok b := by
  cases p with
  | false => exact ⟨false, rfl⟩
  | true =>
    rcases Option.isSome_iff_exists.mp hs with ⟨ns, hns⟩
    rcases Option.isSome_iff_exists.mp ht with ⟨nt, hnt⟩
    unfold reasonNodeOf
    rw [hns]
    by_cases hh : ns.highlighted.getD false = true
    · rw [hnt]
      exact ⟨nt.highlighted.getD false,
        by simp [hh, exceptBindOk, exceptBindPure, exceptPureEq]⟩
    · simp only [Bool.not_eq_true] at hh
      exact ⟨false, by simp [hh, exceptBindOk, exceptBindPure, exceptPureEq]⟩

theorem semanticWeightOf_ok {links : Adj} {s t : String}
    (hs : (alGet links s).isSome = true) (ht : (alGet links t).isSome = true) :
    ∃ q, semanticWeightOf links s t = .ok q := by
  rcases Option.isSome_iff_exists.mp hs with ⟨rowS, hrowS⟩
  rcases Option.isSome_iff_exists.mp ht with ⟨rowT, hrowT⟩
  unfold semanticWeightOf fallbackWeight
  rw [hrowS]
  simp only [exceptBindPure]
  cases h1 : alGet rowS t with
  | some q =>
    by_cases hq : q ≠ 0
    · exact ⟨q, by simp [hq, exceptBindPure, exceptPureEq]⟩
    · simp only [ne_eq, Bool.not_eq_true, not_not] at hq
      rw [hrowT]
      cases h2 : alGet rowT s with
      | some q2 =>
        exact ⟨if q2 = 0 then 1 else q2,
          by simp [hq, h2, exceptBindOk, exceptBindPure, exceptPureEq]⟩
      | none => exact ⟨1, by simp [hq, h2, exceptBindOk, exceptBindPure, exceptPureEq]⟩
  | none =>
    rw [hrowT]
    cases h2 : alGet rowT s with
    | some q2 =>
      exact ⟨if q2 = 0 then 1 else q2,
        by simp [h2, exceptBindOk, exceptBindPure, exceptPureEq]⟩
    | none => exact ⟨1, by simp [h2, exceptBindOk, exceptBindPure, exceptPureEq]⟩

theorem semanticWeightOf_default {links : Adj} {s t : String} {rowS rowT : List (String × ℚ)}
    (hrowS : alGet links s = some rowS) (hrowT : alGet links t = some rowT)
    (h1 : alGet rowS t = none) (h2 : alGet rowT s = none) :
    semanticWeightOf links s t = .ok 1 := by
  unfold semanticWeightOf fallbackWeight
  rw [hrowS]
  simp only [exceptBindPure]
  rw [h1, hrowT]
  simp [h2, exceptBindOk, exceptBindPure, exceptPureEq]

/-- Claim C8. The graceful-degradation half of the claim holds only for the
coordinate lookups and for a missing adjacency *entry*; the claim as a whole
is refuted: with `highlightDegree = 2` every link participates in highlight
checking, so `nodes[source].highlighted` is dereferenced and throws a
`TypeError` when the source node is absent from the node map. -/
theorem C8_counterexample :
    buildLinkProps { source := "A", target := "B" } [] []
      { highlightDegree := 2 } "" none 1 = .error .typeError := by
  rfl

/-- Claim C8 (amended): `buildLinkProps` does not raise provided that
(a) either the link does not participate in highlight checking
(`highlightDegree = 0`, or degree-1 with neither endpoint equal to the
highlighted node) or both endpoint nodes are present, and (b) either
`semanticStrokeWidth` is off or both endpoints' adjacency rows are present.
Under these conditions a missing endpoint node degrades its coordinates to 0
in the produced path, and a missing adjacency entry (in either direction,
with both rows present) degrades the semantic weight to the default 1.
Outside them - a participating missing node, or a missing adjacency row
under `semanticStrokeWidth` - the function throws. -/
theorem C8_amended_theorem (link : RenderLink) (nodes : NodeMap) (links : Adj)
    (config : BLConfig) (hN : String) (hL : Option HLink) (transform : ℚ)
    (hpart : mainNodeParticipatesOf config link.source link.target hN = false ∨
      ((alGet nodes link.source).isSome = true ∧ (alGet nodes link.target).isSome = true))
    (hsem : config.link.semanticStrokeWidth = false ∨
      ((alGet links link.source).isSome = true ∧ (alGet links link.target).isSome = true)) :
    (∃ p, buildLinkProps link nodes links config hN hL transform = .ok p ∧
      p.d = buildLinkPathDefinition (coordX nodes link.source) (coordY nodes link.source)
        (coordX nodes link.target) (coordY nodes link.target) config.link.linkType) ∧
    (alGet nodes link.source = none →
      coordX nodes link.source = 0 ∧ coordY nodes link.source = 0) ∧
    (∀ rowS rowT, alGet links link.source = some rowS →
      alGet links link.target = some rowT →
      alGet rowS link.target = none → alGet rowT link.source = none →
      config.link.semanticStrokeWidth = true →
      ∃ p, buildLinkProps link nodes links config hN hL transform = .ok p ∧
        p.strokeWidth =
          jsOrQ link.strokeWidth config.link.strokeWidth * (1 / transform) +
            1 * (jsOrQ link.strokeWidth config.link.strokeWidth * (1 / transform)) / 10) := by
  have hrn : ∃ b, reasonNodeOf nodes link.source link.target
      (mainNodeParticipatesOf config link.source link.target hN) = .ok b := by
    rcases hpart with hfalse | ⟨hs, ht⟩
    · exact ⟨false, by rw [hfalse]; rfl⟩
    · exact reasonNodeOf_ok_of_present _ hs ht
  rcases hrn with ⟨b, hb⟩
  refine ⟨?_, ?_, ?_⟩
  · simp only [buildLinkProps]
    rw [hb]
    simp only [exceptBindOk]
    by_cases hb2 : config.link.semanticStrokeWidth = true
    · rcases hsem with hoff | ⟨hs, ht⟩
      · rw [hoff] at hb2; cases hb2
      · rcases semanticWeightOf_ok hs ht with ⟨q, hq⟩
        rw [if_pos hb2, hq]
        simp only [exceptBindOk, exceptBindPure]
        exact ⟨_, rfl, rfl⟩
    · rw [if_neg hb2]
      simp only [exceptBindPure]
      exact ⟨_, rfl, rfl⟩
  · intro hnone
    unfold coordX coordY
    rw [hnone]
    exact ⟨rfl, rfl⟩
  · intro rowS rowT hrowS hrowT h1 h2 hsemOn
    simp only [buildLinkProps]
    rw [hb]
    simp only [exceptBindOk]
    rw [if_pos hsemOn, semanticWeightOf_default hrowS hrowT h1 h2]
    simp only [exceptBindOk, exceptBindPure]
    exact ⟨_, rfl, by simp⟩

/-- Witness for C8 (amended): both endpoint rows exist but neither direction
has an entry, `semanticStrokeWidth` on, nobody highlighted - the call
succeeds and uses the default weight 1. -/
theorem C8_witness :
    ∃ p, buildLinkProps { source := "A", target := "B" } []
        [("A", []), ("B", [])] { link := { semanticStrokeWidth := true } } "" none 1 =
      .ok p ∧
      p.strokeWidth =
        jsOrQ none ((3 : ℚ)/2) * (1 / 1) + 1 * (jsOrQ none ((3 : ℚ)/2) * (1 / 1)) / 10 := by
  have h := C8_amended_theorem { source := "A", target := "B" } []
    [("A", []), ("B", [])] { link := { semanticStrokeWidth := true } } "" none 1
    (Or.inl rfl) (Or.inr ⟨rfl, rfl⟩)
  exact h.2.2 [] [] rfl rfl rfl rfl rfl

/-
Helper lemmas: isDeepEqual on primitives and merge key sets.
-/

theorem isDeepEqualAux_primPair (fuel : Nat) (a b : JVal)
    (ha : (∃ q, a = .num q) ∨ ∃ v, a = .bool v)
    (hb : (∃ q, b = .num q) ∨ ∃ v, b = .bool v) :
    isDeepEqualAux fuel a b = true := by
  rcases ha with ⟨q, rfl⟩ | ⟨v, rfl⟩ <;> rcases hb with ⟨q2, rfl⟩ | ⟨v2, rfl⟩ <;>
    cases fuel <;>
    rw [isDeepEqualAux] <;>
    simp [isEmptyObject, JVal.isObjType, JVal.keys]

/-- Claim C10: any two number-or-boolean arguments make `isDeepEqual` return
true - both have an empty own-key set, so after the emptiness and key-count
checks pass vacuously the key loop never runs and no mismatch is recorded
(reference-equal ones additionally return true via the depth-0 shortcut).
In particular `isDeepEqual(1, 2)` is true. -/
theorem C10_theorem (a b : JVal)
    (ha : (∃ q, a = .num q) ∨ ∃ v, a = .bool v)
    (hb : (∃ q, b = .num q) ∨ ∃ v, b = .bool v) :
    isDeepEqual a b = true := by
  unfold isDeepEqual
  by_cases hjs : jsEq a b = true
  · rw [if_pos hjs]
  · rw [if_neg hjs]
    exact isDeepEqualAux_primPair MAX_DEPTH a b ha hb

/-- Witness for C10: `isDeepEqual(1, 2)` and `isDeepEqual(true, 0)` are both
true. -/
theorem C10_witness :
    isDeepEqual (.num 1) (.num 2) = true ∧ isDeepEqual (.bool true) (.num 0) = true :=
  ⟨C10_theorem _ _ (Or.inl ⟨1, rfl⟩) (Or.inl ⟨2, rfl⟩),
   C10_theorem _ _ (Or.inr ⟨true, rfl⟩) (Or.inl ⟨0, rfl⟩)⟩

theorem alSet_keys_of_hasKey {α : Type} {m : List (String × α)} {k : String} {v : α}
    (h : hasKey m k = true) :
    (alSet m k v).map Prod.fst = m.map Prod.fst := by
  unfold alSet
  rw [if_pos h, List.map_map]
  apply List.map_congr_left
  intro p _
  by_cases hp : p.1 = k <;> simp [hp]

theorem mergeAux_obj_shape (fuel : Nat) (fs : List (String × JVal)) (o2 : JVal)
    (hne : fs ≠ []) :
    ∃ fs', mergeAux fuel (.obj fs) o2 = .obj fs' ∧
      fs'.map Prod.fst = fs.map Prod.fst := by
  have hempty : ¬ ((if (JVal.obj fs).truthy then (JVal.obj fs).keys else []).isEmpty = true) := by
    simp [JVal.truthy, JVal.keys, hne]
  cases fuel with
  | zero =>
    refine ⟨_, by rw [mergeAux, if_neg hempty], ?_⟩
    rw [List.map_map]
    have : (Prod.fst ∘ fun k => mergeScalar (.obj fs) o2 k) = id := funext fun k => rfl
    show ((JVal.obj fs).keys).map (Prod.fst ∘ fun k => mergeScalar (.obj fs) o2 k) =
      fs.map Prod.fst
    rw [this, List.map_id]
    rfl
  | succ f =>
    refine ⟨_, by rw [mergeAux, if_neg hempty], ?_⟩
    rw [List.map_map]
    have hfst : (Prod.fst ∘ fun k =>
        if (o2.get k).truthy && (o2.get k).isObjType && ((JVal.obj fs).get k).isObjType then
          let r := mergeAux f ((JVal.obj fs).get k) (o2.get k)
          if ((JVal.obj fs).get k).hasOwn "length" && (o2.get k).hasOwn "length" then
            (k, JVal.arr (r.keys.map fun rk => r.get rk))
          else (k, r)
        else mergeScalar (.obj fs) o2 k) = id := by
      funext k
      show Prod.fst (if _ then _ else _) = k
      split
      · split <;> rfl
      · rfl
    show ((JVal.obj fs).keys).map _ = fs.map Prod.fst
    rw [hfst, List.map_id]
    rfl

theorem merge_keys_of_ne {fs : List (String × JVal)} {o2 : JVal} (hne : fs ≠ []) :
    (merge (.obj fs) o2).keys = (JVal.obj fs).keys := by
  rcases mergeAux_obj_shape MAX_DEPTH fs o2 hne with ⟨fs', hfs', hkeys⟩
  unfold merge
  rw [hfs']
  exact hkeys

theorem buildGraphState_config_def (props : GProps) (ost : Option GState) :
    (buildGraphState props ost).config =
      (if jsNumGt ((newConfigOf props).get "focusZoom") ((newConfigOf props).get "maxZoom") then
        (newConfigOf props).setProp "focusZoom" ((newConfigOf props).get "maxZoom")
      else if jsNumLt ((newConfigOf props).get "focusZoom") ((newConfigOf props).get "minZoom") then
        (newConfigOf props).setProp "focusZoom" ((newConfigOf props).get "minZoom")
      else newConfigOf props) := rfl

theorem newConfigOf_shape (props : GProps) :
    ∃ fs', newConfigOf props = .obj fs' ∧ fs'.map Prod.fst = defaultConfigJ.keys := by
  unfold newConfigOf defaultConfigJ merge
  exact (mergeAux_obj_shape MAX_DEPTH _ _ (by simp)).imp fun fs' h => ⟨h.1, h.2⟩

theorem config_keys_preserved (props : GProps) (ost : Option GState) :
    (buildGraphState props ost).config.keys = defaultConfigJ.keys := by
  rcases newConfigOf_shape props with ⟨fs', hshape, hkeys⟩
  have hfz : hasKey fs' "focusZoom" = true := by
    apply hasKey_iff.mpr
    have : "focusZoom" ∈ fs'.map Prod.fst := by
      rw [hkeys]
      simp [defaultConfigJ, JVal.keys]
    rcases List.mem_map.mp this with ⟨p, hp, hpk⟩
    exact ⟨p, hp, hpk⟩
  have hset : ∀ v, ((newConfigOf props).setProp "focusZoom" v).keys = defaultConfigJ.keys := by
    intro v
    rw [hshape]
    show (alSet fs' "focusZoom" v).map Prod.fst = _
    rw [alSet_keys_of_hasKey hfz]
    exact hkeys
  rw [buildGraphState_config_def]
  split
  · exact hset _
  · split
    · exact hset _
    · rw [hshape]
      exact hkeys

/-- Claim C9: when the base object is non-empty, `merge` iterates only over
the base's keys, so the result's key list is exactly the base's and every
key present only in the override is dropped; consequently the configuration
stored by `initializeGraphState` has exactly the default configuration's
keys, and consumer configuration keys unknown to the defaults do not survive
the merge. -/
theorem C9_theorem :
    (∀ (fs : List (String × JVal)) (o2 : JVal), fs ≠ [] →
      (merge (.obj fs) o2).keys = (JVal.obj fs).keys ∧
      ∀ k, k ∈ o2.keys → k ∉ (JVal.obj fs).keys → k ∉ (merge (.obj fs) o2).keys) ∧
    (∀ (props : GProps) (ost : Option GState) (s : GState),
      initializeGraphState props ost = .ok s →
      s.config.keys = defaultConfigJ.keys) := by
  constructor
  · intro fs o2 hne
    refine ⟨merge_keys_of_ne hne, ?_⟩
    intro k _ hnotin
    rw [merge_keys_of_ne hne]
    exact hnotin
  · intro props ost s hinit
    obtain ⟨-, rfl⟩ := initializeGraphState_ok_inv hinit
    exact config_keys_preserved props ost

/-- Witness for C9: a two-key base against an override carrying a novel key
`"zzz"`, and the concrete initialization whose consumer config key
`"myCustomKey"` does not survive. -/
theorem C9_witness :
    ((merge (.obj [("a", .num 1), ("b", .num 2)])
        (.obj [("b", .num 3), ("zzz", .num 9)])).keys =
      (JVal.obj [("a", .num 1), ("b", .num 2)]).keys) ∧
    ("zzz" ∉ (merge (.obj [("a", .num 1), ("b", .num 2)])
        (.obj [("b", .num 3), ("zzz", .num 9)])).keys) ∧
    ((buildGraphState c9Props none).config.keys = defaultConfigJ.keys) := by
  have h1 := (C9_theorem).1 [("a", .num 1), ("b", .num 2)]
    (.obj [("b", .num 3), ("zzz", .num 9)]) (by simp)
  have h2 := (C9_theorem).2 c9Props none _ (initializeGraphState_eq_ok (by rfl))
  exact ⟨h1.1, h1.2 "zzz" (by simp [JVal.keys]) (by simp [JVal.keys]), h2⟩

/-- Witness for C1 (amended) at the concrete two-node, one-link input. -/
theorem C1_witness :
    (initializeGraphState c1PropsW none = .ok (buildGraphState c1PropsW none)) ∧
    (hasKey (buildGraphState c1PropsW none).nodes "B" = true ↔
      "B" ∈ c1PropsW.data.nodes.map GNode.id) ∧
    (hasKey (buildGraphState c1PropsW none).links "B" = true ↔
      ∃ l ∈ c1PropsW.data.links, l.source = "B" ∨ l.target = "B") := by
  have hinit : initializeGraphState c1PropsW none = .ok (buildGraphState c1PropsW none) :=
    initializeGraphState_eq_ok (by rfl)
  have h := C1_amended_theorem c1PropsW none (buildGraphState c1PropsW none)
    (fun st hst => by cases hst) hinit
  exact ⟨hinit, h.1 "B", h.2 rfl "B"⟩

/-
Helper lemmas: `isDeepEqual` on flat objects and on arrays of them (C6).
A field value is "flat" when it is not object-typed (so never `null`, an
object or an array); all node/link comparison views below are flat.
-/

theorem optField_mem {α : Type} {k : String} {f : α → JVal} {o : Option α}
    {p : String × JVal} (hp : p ∈ optField k f o) : ∃ v, o = some v ∧ p = (k, f v) := by
  cases o with
  | none => simp [optField] at hp
  | some v =>
    simp [optField] at hp
    exact ⟨v, rfl, hp⟩

theorem jsEq_refl_of_flat {v : JVal} (h : v.isObjType = false) : jsEq v v = true := by
  cases v <;> simp_all [jsEq, JVal.isObjType]

theorem isEmptyObject_of_flat {v : JVal} (h : v.isObjType = false) :
    isEmptyObject v = false := by
  unfold isEmptyObject
  rw [h]
  simp

theorem isEmptyObject_obj (fs : List (String × JVal)) :
    isEmptyObject (.obj fs) = fs.isEmpty := by
  cases fs <;> rfl

theorem isEmptyObject_arr (xs : List JVal) :
    isEmptyObject (.arr xs) = xs.isEmpty := by
  cases xs with
  | nil => rfl
  | cons a t =>
    simp [isEmptyObject, JVal.truthy, JVal.isObjType, JVal.keys, List.range_succ]

theorem nestedVal_obj {fs : List (String × JVal)} (h : fs ≠ []) :
    nestedVal (.obj fs) = true := by
  unfold nestedVal
  rw [isEmptyObject_obj]
  cases fs with
  | nil => exact absurd rfl h
  | cons p t => rfl

theorem hasOwn_obj_of_mem {fs : List (String × JVal)} {k : String}
    (h : k ∈ fs.map Prod.fst) : (JVal.obj fs).hasOwn k = true := by
  rcases List.mem_map.mp h with ⟨p, hp, rfl⟩
  simp only [JVal.hasOwn, List.any_eq_true]
  exact ⟨p, hp, by simp⟩

theorem objFlat_step {fs : List (String × JVal)}
    (hflat : ∀ p ∈ fs, p.2.isObjType = false) {k : String}
    (hk : k ∈ fs.map Prod.fst) :
    isPropertyNestedObject (.obj fs) k = false ∧
    deepEqLeaf (.obj fs) k ((JVal.obj fs).get k) ((JVal.obj fs).get k) = true := by
  have hsome : (alGet fs k).isSome = true := by
    rw [alGet_isSome_iff]
    refine hasKey_iff.mpr ?_
    rcases List.mem_map.mp hk with ⟨p, hp, hpk⟩
    exact ⟨p, hp, hpk⟩
  rcases Option.isSome_iff_exists.mp hsome with ⟨v, hv⟩
  rcases alGet_mem hv with ⟨p, hp, -, hpv⟩
  have hvflat : v.isObjType = false := by rw [← hpv]; exact hflat p hp
  have hget : (JVal.obj fs).get k = v := by
    show (alGet fs k).getD .undef = v
    rw [hv]
    rfl
  constructor
  · unfold isPropertyNestedObject nestedVal
    rw [hget, hvflat]
    simp
  · unfold deepEqLeaf
    rw [hget, isEmptyObject_of_flat hvflat, hasOwn_obj_of_mem hk, jsEq_refl_of_flat hvflat]
    simp

theorem isDeepEqualAux_objFlat_refl (fuel : Nat) (fs : List (String × JVal))
    (hflat : ∀ p ∈ fs, p.2.isObjType = false) :
    isDeepEqualAux fuel (.obj fs) (.obj fs) = true := by
  cases fuel with
  | zero =>
    rw [isDeepEqualAux]
    rw [if_neg (by cases isEmptyObject (JVal.obj fs) <;> simp)]
    show (if (JVal.obj fs).keys.length ≠ (JVal.obj fs).keys.length then false
          else (JVal.obj fs).keys.all fun k =>
            deepEqLeaf (.obj fs) k ((JVal.obj fs).get k) ((JVal.obj fs).get k)) = true
    rw [if_neg (by simp)]
    rw [List.all_eq_true]
    · intro k hk
      exact (objFlat_step hflat hk).2
    · exact fun xs ys h => nomatch h
  | succ n =>
    rw [isDeepEqualAux]
    rw [if_neg (by cases isEmptyObject (JVal.obj fs) <;> simp)]
    show (if (JVal.obj fs).keys.length ≠ (JVal.obj fs).keys.length then false
          else (JVal.obj fs).keys.all fun k =>
            if isPropertyNestedObject (.obj fs) k && isPropertyNestedObject (.obj fs) k then
              isDeepEqualAux n ((JVal.obj fs).get k) ((JVal.obj fs).get k)
            else deepEqLeaf (.obj fs) k ((JVal.obj fs).get k) ((JVal.obj fs).get k)) = true
    rw [if_neg (by simp)]
    rw [List.all_eq_true]
    · intro k hk
      rw [if_neg (by rw [(objFlat_step hflat hk).1]; simp)]
      exact (objFlat_step hflat hk).2
    · exact fun xs ys h => nomatch h

theorem isDeepEqualAux_arr_zero (xs ys : List JVal) :
    isDeepEqualAux 0 (.arr xs) (.arr ys) =
      (if (isEmptyObject (JVal.arr xs) && !isEmptyObject (JVal.arr ys)) ||
          (!isEmptyObject (JVal.arr xs) && isEmptyObject (JVal.arr ys)) then false
       else if xs.length ≠ ys.length then false
       else (List.range xs.length).all fun i =>
         deepEqLeafArr (xs.getD i .undef) (ys.getD i .undef)) := rfl

theorem isDeepEqualAux_arr_succ (fuel : Nat) (xs ys : List JVal) :
    isDeepEqualAux (fuel + 1) (.arr xs) (.arr ys) =
      (if (isEmptyObject (JVal.arr xs) && !isEmptyObject (JVal.arr ys)) ||
          (!isEmptyObject (JVal.arr xs) && isEmptyObject (JVal.arr ys)) then false
       else if xs.length ≠ ys.length then false
       else (List.range xs.length).all fun i =>
         if nestedVal (xs.getD i .undef) && nestedVal (ys.getD i .undef) then
           isDeepEqualAux fuel (xs.getD i .undef) (ys.getD i .undef)
         else deepEqLeafArr (xs.getD i .undef) (ys.getD i .undef)) := rfl

theorem isEmpty_eq_of_length_eq {α β : Type} {xs : List α} {ys : List β}
    (h : xs.length = ys.length) : xs.isEmpty = ys.isEmpty := by
  cases xs <;> cases ys <;> simp_all

theorem arrPrelude_false {xs ys : List JVal} (h : xs.length = ys.length) :
    ((isEmptyObject (JVal.arr xs) && !isEmptyObject (JVal.arr ys)) ||
     (!isEmptyObject (JVal.arr xs) && isEmptyObject (JVal.arr ys))) = false := by
  rw [isEmptyObject_arr, isEmptyObject_arr, isEmpty_eq_of_length_eq h]
  cases ys.isEmpty <;> simp

theorem isDeepEqualAux_arr_len_ne (fuel : Nat) {xs ys : List JVal}
    (h : xs.length ≠ ys.length) :
    isDeepEqualAux fuel (.arr xs) (.arr ys) = false := by
  cases fuel with
  | zero =>
    rw [isDeepEqualAux_arr_zero]
    by_cases hp : ((isEmptyObject (JVal.arr xs) && !isEmptyObject (JVal.arr ys)) ||
        (!isEmptyObject (JVal.arr xs) && isEmptyObject (JVal.arr ys))) = true
    · rw [if_pos hp]
    · rw [if_neg hp, if_pos h]
  | succ n =>
    rw [isDeepEqualAux_arr_succ]
    by_cases hp : ((isEmptyObject (JVal.arr xs) && !isEmptyObject (JVal.arr ys)) ||
        (!isEmptyObject (JVal.arr xs) && isEmptyObject (JVal.arr ys))) = true
    · rw [if_pos hp]
    · rw [if_neg hp, if_pos h]

theorem isDeepEqualAux_arrRefl (fuel : Nat) (xs : List JVal)
    (helem : ∀ v ∈ xs, ∃ fs, v = JVal.obj fs ∧ ∀ p ∈ fs, p.2.isObjType = false) :
    isDeepEqualAux (fuel + 1) (.arr xs) (.arr xs) = true := by
  rw [isDeepEqualAux_arr_succ]
  rw [if_neg (by rw [arrPrelude_false rfl]; simp)]
  rw [if_neg (by simp)]
  rw [List.all_eq_true]
  intro i hi
  have hi' : i < xs.length := List.mem_range.mp hi
  have hmem : xs.getD i .undef ∈ xs := by
    rw [List.getD_eq_getElem?_getD, List.getElem?_eq_getElem hi']
    exact List.getElem_mem hi'
  rcases helem _ hmem with ⟨fs, hfs, hflat⟩
  rw [hfs]
  by_cases hnil : fs = []
  · subst hnil
    rw [if_neg (by decide)]
    decide
  · rw [if_pos (by rw [nestedVal_obj hnil]; simp)]
    exact isDeepEqualAux_objFlat_refl fuel fs hflat

theorem list_all_false_of_mem {α : Type} {l : List α} {p : α → Bool} {x : α}
    (hx : x ∈ l) (hpx : p x = false) : l.all p = false := by
  cases h : l.all p with
  | false => rfl
  | true => exact absurd (List.all_eq_true.mp h x hx) (by simp [hpx])

theorem list_set_same {α : Type} (l : List α) (i : Nat) (v : α)
    (h : l[i]? = some v) : l.set i v = l := by
  induction l generalizing i with
  | nil => simp at h
  | cons a t ih =>
    cases i with
    | zero =>
      simp only [List.getElem?_cons_zero, Option.some.injEq] at h
      subst h
      rfl
    | succ n =>
      simp only [List.getElem?_cons_succ] at h
      show a :: t.set n v = a :: t
      rw [ih n h]

theorem list_map_set {α β : Type} (f : α → β) (l : List α) (i : Nat) (v : α) :
    (l.set i v).map f = (l.map f).set i (f v) := by
  induction l generalizing i with
  | nil => rfl
  | cons a t ih =>
    cases i with
    | zero => rfl
    | succ n =>
      show f a :: (t.set n v).map f = f a :: (t.map f).set n (f v)
      rw [ih]

theorem isDeepEqualAux_obj_ne (fuel : Nat) {fs1 fs2 : List (String × JVal)} {k : String}
    (hk : k ∈ fs1.map Prod.fst)
    (hflat1 : ((JVal.obj fs1).get k).isObjType = false)
    (hjs : jsEq ((JVal.obj fs2).get k) ((JVal.obj fs1).get k) = false)
    (h1 : fs1 ≠ []) (h2 : fs2 ≠ []) :
    isDeepEqualAux fuel (.obj fs1) (.obj fs2) = false := by
  have e1 : fs1.isEmpty = false := by
    cases fs1 with
    | nil => exact absurd rfl h1
    | cons a t => rfl
  have e2 : fs2.isEmpty = false := by
    cases fs2 with
    | nil => exact absurd rfl h2
    | cons a t => rfl
  have hpre : ((isEmptyObject (JVal.obj fs1) && !isEmptyObject (JVal.obj fs2)) ||
      (!isEmptyObject (JVal.obj fs1) && isEmptyObject (JVal.obj fs2))) = false := by
    rw [isEmptyObject_obj, isEmptyObject_obj, e1, e2]
    rfl
  have hleaf : deepEqLeaf (.obj fs2) k ((JVal.obj fs1).get k) ((JVal.obj fs2).get k) = false := by
    unfold deepEqLeaf
    rw [isEmptyObject_of_flat hflat1, hjs]
    simp
  have hn1 : isPropertyNestedObject (.obj fs1) k = false := by
    unfold isPropertyNestedObject nestedVal
    rw [hflat1]
    simp
  cases fuel with
  | zero =>
    rw [isDeepEqualAux]
    · rw [if_neg (by rw [hpre]; simp)]
      show (if (JVal.obj fs1).keys.length ≠ (JVal.obj fs2).keys.length then false
            else (JVal.obj fs1).keys.all fun kk =>
              deepEqLeaf (.obj fs2) kk ((JVal.obj fs1).get kk) ((JVal.obj fs2).get kk)) = false
      by_cases hlen : (JVal.obj fs1).keys.length ≠ (JVal.obj fs2).keys.length
      · rw [if_pos hlen]
      · rw [if_neg hlen]
        exact list_all_false_of_mem hk hleaf
    · exact fun xs ys h => nomatch h
  | succ n =>
    rw [isDeepEqualAux]
    · rw [if_neg (by rw [hpre]; simp)]
      show (if (JVal.obj fs1).keys.length ≠ (JVal.obj fs2).keys.length then false
            else (JVal.obj fs1).keys.all fun kk =>
              if isPropertyNestedObject (.obj fs1) kk && isPropertyNestedObject (.obj fs2) kk then
                isDeepEqualAux n ((JVal.obj fs1).get kk) ((JVal.obj fs2).get kk)
              else deepEqLeaf (.obj fs2) kk ((JVal.obj fs1).get kk) ((JVal.obj fs2).get kk)) = false
      by_cases hlen : (JVal.obj fs1).keys.length ≠ (JVal.obj fs2).keys.length
      · rw [if_pos hlen]
      · rw [if_neg hlen]
        refine list_all_false_of_mem hk ?_
        rw [if_neg (by rw [hn1]; simp)]
        exact hleaf
    · exact fun xs ys h => nomatch h

theorem isDeepEqual_arr (xs ys : List JVal) :
    isDeepEqual (.arr xs) (.arr ys) = isDeepEqualAux MAX_DEPTH (.arr xs) (.arr ys) := by
  have hj : jsEq (JVal.arr xs) (JVal.arr ys) = false := rfl
  unfold isDeepEqual
  rw [if_neg (by rw [hj]; simp)]

theorem isDeepEqual_arrRefl (xs : List JVal)
    (helem : ∀ v ∈ xs, ∃ fs, v = JVal.obj fs ∧ ∀ p ∈ fs, p.2.isObjType = false) :
    isDeepEqual (.arr xs) (.arr xs) = true := by
  rw [isDeepEqual_arr]
  show isDeepEqualAux (19 + 1) (.arr xs) (.arr xs) = true
  exact isDeepEqualAux_arrRefl 19 xs helem

/-
Helper lemmas: the comparison views of encoded nodes and links (C6).
-/

set_option maxHeartbeats 8000000 in
theorem antiPick_toJ (n : GNode) :
    antiPick (GNode.toJ n) NODE_PROPERTIES_DISCARD_TO_COMPARE = .obj (cmpFields n) := by
  rcases n with ⟨id, x, y, vx, vy, index, hl, color, orphan⟩
  cases x <;> cases y <;> cases vx <;> cases vy <;> cases index <;> cases hl <;>
    cases color <;> cases orphan <;> rfl

theorem cmpFields_flat (n : GNode) : ∀ p ∈ cmpFields n, p.2.isObjType = false := by
  intro p hp
  unfold cmpFields at hp
  rcases List.mem_append.mp hp with h | h
  · rcases List.mem_append.mp h with h | h
    · rcases List.mem_append.mp h with h | h
      · rcases List.mem_singleton.mp h with rfl
        rfl
      · rcases optField_mem h with ⟨v, -, rfl⟩
        rfl
    · rcases optField_mem h with ⟨v, -, rfl⟩
      rfl
  · rcases optField_mem h with ⟨v, -, rfl⟩
    rfl

theorem cmpFields_ne_nil (n : GNode) : cmpFields n ≠ [] := by
  unfold cmpFields
  intro h
  simp at h

theorem cmpFields_initNode {n : GNode} (h : n.highlighted = some false) :
    cmpFields (initNode n) = cmpFields n := by
  unfold cmpFields initNode
  rw [h]

theorem cmp_get_id (n : GNode) : (JVal.obj (cmpFields n)).get "id" = .str n.id := rfl

theorem cmp_get_color (n : GNode) :
    (JVal.obj (cmpFields n)).get "color" =
      (match n.color with | some c => .str c | none => .undef) := by
  rcases n with ⟨id, x, y, vx, vy, index, hl, color, orphan⟩
  cases hl <;> cases color <;> cases orphan <;> rfl

theorem color_mem_cmp_keys {n : GNode} {c : String} (h : n.color = some c) :
    "color" ∈ (cmpFields n).map Prod.fst := by
  unfold cmpFields
  rw [h]
  simp [optField]

theorem cmpobj_elem_flat (ns : List GNode) :
    ∀ v ∈ ns.map fun n => JVal.obj (cmpFields n),
      ∃ fs, v = JVal.obj fs ∧ ∀ p ∈ fs, p.2.isObjType = false := by
  intro v hv
  rcases List.mem_map.mp hv with ⟨n, -, rfl⟩
  exact ⟨cmpFields n, rfl, cmpFields_flat n⟩

theorem map_antiPick_nodes (ns : List GNode) :
    (ns.map GNode.toJ).map (antiPick · NODE_PROPERTIES_DISCARD_TO_COMPARE) =
      ns.map fun n => JVal.obj (cmpFields n) := by
  rw [List.map_map]
  exact List.map_congr_left fun n _ => antiPick_toJ n

theorem toJ_bare {l : InputLink} (h1 : l.value = none) (h2 : l.isHidden = none)
    (h3 : l.color = none) (h4 : l.opacity = none) (h5 : l.strokeWidth = none)
    (h6 : l.label = none) :
    InputLink.toJ l = .obj [("source", .str l.source), ("target", .str l.target)] := by
  unfold InputLink.toJ
  rw [h1, h2, h3, h4, h5, h6]
  rfl

theorem map_bare_links (ls : List InputLink)
    (hbare : ∀ l ∈ ls, l.value = none ∧ l.isHidden = none ∧ l.color = none ∧
      l.opacity = none ∧ l.strokeWidth = none ∧ l.label = none) :
    ls.map InputLink.toJ = ls.map fun l =>
      JVal.obj [("source", JVal.str l.source), ("target", JVal.str l.target)] :=
  List.map_congr_left fun l hl => by
    obtain ⟨h1, h2, h3, h4, h5, h6⟩ := hbare l hl
    exact toJ_bare h1 h2 h3 h4 h5 h6

theorem rawJ (ls : List InputLink) :
    (ls.map GLink.raw).map GLink.toJ = ls.map InputLink.toJ := by
  rw [List.map_map]
  exact List.map_congr_left fun l _ => rfl

theorem epProj_src (s t : String) :
    epProj (.obj [("source", JVal.str s), ("target", JVal.str t)]) "source" = .str s := rfl

theorem epProj_tgt (s t : String) :
    epProj (.obj [("source", JVal.str s), ("target", JVal.str t)]) "target" = .str t := rfl

theorem bare_proj (ls : List InputLink) :
    ((ls.map fun l =>
        JVal.obj [("source", JVal.str l.source), ("target", JVal.str l.target)]).map
      fun l => JVal.obj [("source", epProj l "source"), ("target", epProj l "target")]) =
    ls.map fun l =>
      JVal.obj [("source", JVal.str l.source), ("target", JVal.str l.target)] := by
  rw [List.map_map]
  refine List.map_congr_left fun l _ => ?_
  show JVal.obj [("source", epProj _ "source"), ("target", epProj _ "target")] = _
  rw [epProj_src, epProj_tgt]

theorem bare_proj_get (ls : List InputLink) :
    ((ls.map fun l =>
        JVal.obj [("source", JVal.str l.source), ("target", JVal.str l.target)]).map
      fun l => JVal.obj [("source", l.get "source"), ("target", l.get "target")]) =
    ls.map fun l =>
      JVal.obj [("source", JVal.str l.source), ("target", JVal.str l.target)] := by
  rw [List.map_map]
  exact List.map_congr_left fun l _ => rfl

theorem pairObj_elem_flat (ls : List InputLink) :
    ∀ v ∈ ls.map fun l =>
        JVal.obj [("source", JVal.str l.source), ("target", JVal.str l.target)],
      ∃ fs, v = JVal.obj fs ∧ ∀ p ∈ fs, p.2.isObjType = false := by
  intro v hv
  rcases List.mem_map.mp hv with ⟨l, -, rfl⟩
  refine ⟨_, rfl, ?_⟩
  intro p hp
  rcases List.mem_cons.mp hp with rfl | hp
  · rfl
  · rcases List.mem_singleton.mp hp with rfl
    rfl

theorem idProj_cmp (ns : List GNode) :
    ((ns.map fun n => JVal.obj (cmpFields n)).map
      fun n => JVal.obj [("id", n.get "id")]) =
    ns.map fun n => JVal.obj [("id", JVal.str n.id)] := by
  rw [List.map_map]
  refine List.map_congr_left fun n _ => ?_
  show JVal.obj [("id", (JVal.obj (cmpFields n)).get "id")] = _
  rw [cmp_get_id]

theorem idObj_elem_flat (ns : List GNode) :
    ∀ v ∈ ns.map fun n => JVal.obj [("id", JVal.str n.id)],
      ∃ fs, v = JVal.obj fs ∧ ∀ p ∈ fs, p.2.isObjType = false := by
  intro v hv
  rcases List.mem_map.mp hv with ⟨n, -, rfl⟩
  refine ⟨_, rfl, ?_⟩
  intro p hp
  rcases List.mem_singleton.mp hp with rfl
  rfl

/-- Resubmitting the same data to `checkForGraphElementsChanges` against a
freshly initialized state reports no change at all - provided every input
node already declares `highlighted: false` (otherwise `_initializeNodes` has
added that property to the stored `d3Nodes`) and every input link is bare
(only `source`/`target`). -/
theorem check_resubmission (ns : List GNode) (ls : List InputLink)
    (hhl : ∀ n ∈ ns, n.highlighted = some false)
    (hbare : ∀ l ∈ ls, l.value = none ∧ l.isHidden = none ∧ l.color = none ∧
      l.opacity = none ∧ l.strokeWidth = none ∧ l.label = none) :
    checkForGraphElementsChanges
      { nodes := ns.map GNode.toJ, links := ls.map InputLink.toJ }
      { d3Nodes := (ns.map initNode).map GNode.toJ
        d3Links := (ls.map GLink.raw).map GLink.toJ } = (false, false) := by
  have hSN : ((ns.map initNode).map GNode.toJ).map
      (antiPick · NODE_PROPERTIES_DISCARD_TO_COMPARE) =
      ns.map fun n => JVal.obj (cmpFields n) := by
    rw [map_antiPick_nodes (ns.map initNode), List.map_map]
    refine List.map_congr_left fun n hn => ?_
    show JVal.obj (cmpFields (initNode n)) = JVal.obj (cmpFields n)
    rw [cmpFields_initNode (hhl n hn)]
  simp only [checkForGraphElementsChanges]
  rw [map_antiPick_nodes ns, hSN, rawJ, map_bare_links ls hbare, bare_proj, bare_proj_get,
    idProj_cmp]
  rw [isDeepEqual_arrRefl _ (cmpobj_elem_flat ns),
    isDeepEqual_arrRefl _ (pairObj_elem_flat ls),
    isDeepEqual_arrRefl _ (idObj_elem_flat ns)]
  simp

/-- The comparison views of a node list and of the same list with one node's
`color` replaced by a fresh value are not deep-equal. -/
theorem cmp_arrays_ne (ns : List GNode) (i : Nat) (hi : i < ns.length) (c : String)
    (hc : (ns.get ⟨i, hi⟩).color ≠ some c) :
    isDeepEqual
      (.arr ((ns.map fun n => JVal.obj (cmpFields n)).set i
        (JVal.obj (cmpFields { ns.get ⟨i, hi⟩ with color := some c }))))
      (.arr (ns.map fun n => JVal.obj (cmpFields n))) = false := by
  rw [isDeepEqual_arr]
  show isDeepEqualAux (19 + 1) _ _ = false
  rw [isDeepEqualAux_arr_succ]
  rw [if_neg (by rw [arrPrelude_false (by simp)]; simp)]
  rw [if_neg (by simp)]
  have hilt : i < ((ns.map fun n => JVal.obj (cmpFields n)).set i
      (JVal.obj (cmpFields { ns.get ⟨i, hi⟩ with color := some c }))).length := by
    simp [hi]
  refine list_all_false_of_mem (List.mem_range.mpr hilt) ?_
  have hA : (((ns.map fun n => JVal.obj (cmpFields n)).set i
      (JVal.obj (cmpFields { ns.get ⟨i, hi⟩ with color := some c }))).getD i .undef) =
      JVal.obj (cmpFields { ns.get ⟨i, hi⟩ with color := some c }) := by
    rw [List.getD_eq_getElem?_getD, List.getElem?_set_self (by simp [hi])]
    rfl
  have hB : ((ns.map fun n => JVal.obj (cmpFields n)).getD i .undef) =
      JVal.obj (cmpFields (ns.get ⟨i, hi⟩)) := by
    rw [List.getD_eq_getElem?_getD, List.getElem?_map, List.getElem?_eq_getElem hi]
    rfl
  simp only [hA, hB]
  rw [if_pos (by
    rw [nestedVal_obj (cmpFields_ne_nil _), nestedVal_obj (cmpFields_ne_nil _)]
    rfl)]
  refine isDeepEqualAux_obj_ne 19 (color_mem_cmp_keys rfl) ?_ ?_
    (cmpFields_ne_nil _) (cmpFields_ne_nil _)
  · rw [cmp_get_color]
    rfl
  · rw [cmp_get_color, cmp_get_color]
    cases hcc : (ns.get ⟨i, hi⟩).color with
    | none => rfl
    | some c0 =>
      have hne : c0 ≠ c := fun h => hc (by rw [hcc, h])
      show jsEq (JVal.str c0) (JVal.str c) = false
      show (c0 == c) = false
      exact beq_eq_false_iff_ne.mpr hne

/-- The id projection of the comparison views is unaffected by a color
change. -/
theorem idProj_set (ns : List GNode) (i : Nat) (hi : i < ns.length) (c : String) :
    (((ns.map fun n => JVal.obj (cmpFields n)).set i
        (JVal.obj (cmpFields { ns.get ⟨i, hi⟩ with color := some c }))).map
      fun n => JVal.obj [("id", n.get "id")]) =
    ns.map fun n => JVal.obj [("id", JVal.str n.id)] := by
  rw [list_map_set]
  simp only [idProj_cmp, cmp_get_id]
  refine list_set_same _ i _ ?_
  rw [List.getElem?_map, List.getElem?_eq_getElem hi]
  rfl

/-- Changing only one node's `color` (to a value it did not already carry),
with the resubmission provisos otherwise in force, reports
`graphElementsUpdated` without `newGraphElements`. -/
theorem check_colorchange (ns : List GNode) (ls : List InputLink)
    (i : Nat) (hi : i < ns.length) (c : String)
    (hc : (ns.get ⟨i, hi⟩).color ≠ some c)
    (hhl : ∀ n ∈ ns, n.highlighted = some false)
    (hbare : ∀ l ∈ ls, l.value = none ∧ l.isHidden = none ∧ l.color = none ∧
      l.opacity = none ∧ l.strokeWidth = none ∧ l.label = none) :
    checkForGraphElementsChanges
      { nodes := (ns.set i { ns.get ⟨i, hi⟩ with color := some c }).map GNode.toJ
        links := ls.map InputLink.toJ }
      { d3Nodes := (ns.map initNode).map GNode.toJ
        d3Links := (ls.map GLink.raw).map GLink.toJ } = (true, false) := by
  have hSN : ((ns.map initNode).map GNode.toJ).map
      (antiPick · NODE_PROPERTIES_DISCARD_TO_COMPARE) =
      ns.map fun n => JVal.obj (cmpFields n) := by
    rw [map_antiPick_nodes (ns.map initNode), List.map_map]
    refine List.map_congr_left fun n hn => ?_
    show JVal.obj (cmpFields (initNode n)) = JVal.obj (cmpFields n)
    rw [cmpFields_initNode (hhl n hn)]
  have hNext : ((ns.set i { ns.get ⟨i, hi⟩ with color := some c }).map GNode.toJ).map
      (antiPick · NODE_PROPERTIES_DISCARD_TO_COMPARE) =
      (ns.map fun n => JVal.obj (cmpFields n)).set i
        (JVal.obj (cmpFields { ns.get ⟨i, hi⟩ with color := some c })) := by
    rw [map_antiPick_nodes (ns.set i { ns.get ⟨i, hi⟩ with color := some c }),
      list_map_set]
  simp only [checkForGraphElementsChanges]
  rw [hNext, hSN, rawJ, map_bare_links ls hbare, bare_proj, bare_proj_get, idProj_set,
    idProj_cmp]
  rw [cmp_arrays_ne ns i hi c hc,
    isDeepEqual_arrRefl _ (pairObj_elem_flat ls),
    isDeepEqual_arrRefl _ (idObj_elem_flat ns)]
  simp

/-- A next-data slice whose node count differs from the state always reports
both signals. -/
theorem check_count_ne (next : GraphData) (st : GState)
    (h : next.nodes.length ≠ st.d3Nodes.length) :
    checkForGraphElementsChangesS next st = (true, true) := by
  have hlen : ((next.nodes.map GNode.toJ).map
      (antiPick · NODE_PROPERTIES_DISCARD_TO_COMPARE)).length ≠
      ((st.d3Nodes.map GNode.toJ).map
      (antiPick · NODE_PROPERTIES_DISCARD_TO_COMPARE)).length := by
    simpa using h
  simp only [checkForGraphElementsChangesS, checkForGraphElementsChanges]
  rw [isDeepEqual_arr, isDeepEqualAux_arr_len_ne MAX_DEPTH hlen]
  simp [h]

/-- Claim C6 (counterexample): resubmitting the very data that built the
state is claimed to report `(false, false)`, but it reports
`graphElementsUpdated = true`: `_initializeNodes` mutated the stored
`d3Nodes` (adding `highlighted: false` and defaulted coordinates), and the
added `highlighted` property survives the ephemeral strip, so the deep
comparison fails on the key counts. -/
theorem C6_counterexample :
    initializeGraphState c6Props none = .ok c6CexState ∧
    checkForGraphElementsChangesS c6Props.data c6CexState = (true, false) :=
  ⟨rfl, rfl⟩

/-- Claim C6 (amended): against a freshly initialized state, (A) resubmitting
the same data reports `(false, false)` provided every input node already
declares `highlighted: false` and every link is bare; (B) a next-input whose
node count differs from the stored `d3Nodes` reports `(true, true)`; and
(C) changing only one node's `color` (to a value it did not carry), under
the same provisos, reports `(true, false)`. -/
theorem C6_amended_theorem (props : GProps) (s : GState)
    (data' : GraphData) (st : GState)
    (i : Nat) (hi : i < props.data.nodes.length) (c : String)
    (hhl : ∀ n ∈ props.data.nodes, n.highlighted = some false)
    (hbare : ∀ l ∈ props.data.links, l.value = none ∧ l.isHidden = none ∧
      l.color = none ∧ l.opacity = none ∧ l.strokeWidth = none ∧ l.label = none)
    (hok : initializeGraphState props none = .ok s)
    (hcount : data'.nodes.length ≠ st.d3Nodes.length)
    (hc : (props.data.nodes.get ⟨i, hi⟩).color ≠ some c) :
    checkForGraphElementsChangesS props.data s = (false, false) ∧
    checkForGraphElementsChangesS data' st = (true, true) ∧
    checkForGraphElementsChangesS
      { nodes := props.data.nodes.set i
          { props.data.nodes.get ⟨i, hi⟩ with color := some c }
        links := props.data.links } s = (true, false) := by
  obtain ⟨-, rfl⟩ := initializeGraphState_ok_inv hok
  have hd3n : (buildGraphState props none).d3Nodes = props.data.nodes.map initNode := rfl
  have hd3l : (buildGraphState props none).d3Links = props.data.links.map GLink.raw := rfl
  refine ⟨?_, check_count_ne data' st hcount, ?_⟩
  · unfold checkForGraphElementsChangesS
    rw [hd3n, hd3l]
    exact check_resubmission props.data.nodes props.data.links hhl hbare
  · unfold checkForGraphElementsChangesS
    rw [hd3n, hd3l]
    exact check_colorchange props.data.nodes props.data.links i hi c hc hhl hbare

/-- Witness for C6 (amended) at the concrete two-node, one-link input with
declared `highlighted: false`: resubmission reports nothing, a one-node
next-input reports both signals, and a color change on node `"A"` reports
only `graphElementsUpdated`. -/
theorem C6_witness :
    initializeGraphState c6PropsW none = .ok c6StateW ∧
    c6DataSmall.nodes.length ≠ c6StateW.d3Nodes.length ∧
    checkForGraphElementsChangesS c6PropsW.data c6StateW = (false, false) ∧
    checkForGraphElementsChangesS c6DataSmall c6StateW = (true, true) ∧
    checkForGraphElementsChangesS
      { nodes := c6PropsW.data.nodes.set 0
          { c6PropsW.data.nodes.get ⟨0, by decide⟩ with color := some "red" }
        links := c6PropsW.data.links } c6StateW = (true, false) := by
  have h := C6_amended_theorem c6PropsW c6StateW c6DataSmall c6StateW 0 (by decide) "red"
    (by decide)
    (by
      intro l hl
      rcases List.mem_singleton.mp hl with rfl
      exact ⟨rfl, rfl, rfl, rfl, rfl, rfl⟩)
    rfl (by decide) (by decide)
  exact ⟨rfl, by decide, h.1, h.2.1, h.2.2⟩

end RD3G
